import Mathlib

/-!
Shallow embedding of the myclinic-backend appointment/queue/wallet/reminder
subsystem, translated from the JavaScript source:

* `src/server/services/walletService.js` — ledger engine
* `src/routes/appointments.js` — booking, cancellation, resolution, availability
* `src/server/services/accountDisableService.js` (queue service part) — queue ops
* `src/unnamed/part_005` (doctorReminderService) — reminder passes
* `src/server/models/appointment.js` — appointment schema and unique index

Mongoose sessions (`withTransaction`) are modelled as all-or-nothing: the
transaction body is a function `ClinicState → Except Err ClinicState`; on error
the route returns the original state.  Monetary amounts (JS numbers used as
decimal currency) are modelled as `Rat`.  Date strings are `YYYY-MM-DD`, for
which JS `new Date` comparison coincides with lexicographic string order.
-/

namespace MyClinic

abbrev UserId := Nat
abbrev Money := Rat

/-- `status` enum of `appointmentSchema` (src/server/models/appointment.js). -/
inductive ApptStatus where
  | Upcoming | Completed | Cancelled | NoShow | DoctorCancelled
deriving DecidableEq, Repr

/-- `cancellationResolution` enum of `appointmentSchema`. -/
inductive Resolution where
  | Pending | Rescheduled | Refunded | Redirected
deriving DecidableEq, Repr

/-- `type` enum of `transactionSchema` (src/server/models/transaction.js). -/
inductive TxDirection where
  | credit | debit
deriving DecidableEq, Repr

/-- Queue item statuses (spec §3 QueueItem; used literally in the queue service). -/
inductive QStatus where
  | Waiting | Serving | Held | Done | Left | RemovedByAdmin
deriving DecidableEq, Repr

/-- One appointment document (src/server/models/appointment.js). -/
structure Appointment where
  id : Nat
  user : UserId
  doctor : UserId
  hospital : Nat
  appointmentType : Nat
  date : String
  time : String
  cost : Money
  status : ApptStatus
  cancellationResolution : Resolution := .Pending
  isRefunded : Bool := false
  reminderSet : Bool := false
  queueNumber : Option String := none
  doctorReminder24hSent : Bool := false
  doctorReminder1hSent : Bool := false
  doctorReminder24hSentAt : Option Nat := none
  doctorReminder1hSentAt : Option Nat := none
deriving DecidableEq, Repr

/-- One transaction document (src/server/models/transaction.js).  The wallet is
one-to-one with its user, so the `wallet` reference is keyed by the user id. -/
structure Transaction where
  wallet : UserId
  user : UserId
  hospital : Option Nat
  amount : Money
  direction : TxDirection
  transactionType : String
  description : String
  referenceId : String
  txStatus : String := "Completed"
deriving DecidableEq, Repr

/-- One wallet document: owning user (unique) and balance. -/
structure Wallet where
  user : UserId
  balance : Money
deriving DecidableEq, Repr

/-- Modelled from the spec: `src/models/queueItem.js` is not in the sources
(only its callers are).  Spec §3: either linked to a registered patient or a
free-text walk-in name; references doctor, hospital, optional originating
appointment; `status ∈ {Waiting, Serving, Held, Done, Left, RemovedByAdmin}`
with creation-time default `Waiting` (spec §4.4 `join` "inserts as Waiting");
`checkInTime` is the server-generated FIFO key. -/
structure QueueItem where
  id : Nat
  user : Option UserId
  walkInName : Option String := none
  doctor : UserId
  hospital : Nat
  queueNumber : String
  status : QStatus := .Waiting
  checkInTime : Nat
  appointment : Option Nat := none
deriving DecidableEq, Repr

/-- A redeem code (src/unnamed/part_006 schema: code, amount, isUsed). -/
structure RedeemCode where
  id : Nat
  amount : Money
  isUsed : Bool
deriving DecidableEq, Repr

/-- One weekly-availability entry of a doctor (user model `availability`). -/
structure AvailabilityEntry where
  dayOfWeek : String
  isAvailable : Bool
  startTime : String
  endTime : String
  hospital : Option Nat
deriving DecidableEq, Repr

/-- A user record as consulted by the modelled routes (role, flags,
hospital memberships, availability, unavailability episodes, doctor
reminder preferences). -/
structure UserRec where
  id : UserId
  role : String
  nameEn : String
  isActive : Bool := true
  isDisabled : Bool := false
  hospitals : List Nat := []
  availability : List AvailabilityEntry := []
  unavailabilityEpisodes : List (String × String) := []
  reminderPrefEnabled : Bool := true
  reminderPref24h : Bool := true
  reminderPref1h : Bool := true
deriving DecidableEq, Repr

/-- A hospital record (refund policy percentage, 0–100). -/
structure HospitalRec where
  id : Nat
  refundPolicyPercentage : Money
deriving DecidableEq, Repr

/-- A service-type record (src/models/appointmentType.js: duration, cost). -/
structure AppointmentTypeRec where
  id : Nat
  nameEn : String := ""
  cost : Money
  duration : Nat
deriving DecidableEq, Repr

/-- The catalog / identity environment consulted (read-only) by the routes,
plus the server clock: `today` is `moment().format('YYYY-MM-DD')` and
`nowMinutes` the current minutes-since-midnight. -/
structure Env where
  users : List UserRec
  hospitals : List HospitalRec
  appointmentTypes : List AppointmentTypeRec
  today : String
  nowMinutes : Nat
deriving Repr

/-- The mutable document store owned by the core: the four entities plus the
in-app notification log, fresh-id counters and a clock used for server-side
`checkInTime` stamps. -/
structure ClinicState where
  appointments : List Appointment
  queueItems : List QueueItem
  wallets : List Wallet
  transactions : List Transaction
  redeemCodes : List RedeemCode
  notifications : List UserId
  nextApptId : Nat
  nextQueueId : Nat
  clock : Nat
deriving DecidableEq, Repr

def findUser (env : Env) (uid : UserId) : Option UserRec :=
  env.users.find? (fun u => u.id = uid)

def findHospital (env : Env) (hid : Nat) : Option HospitalRec :=
  env.hospitals.find? (fun h => h.id = hid)

def findAppointmentType (env : Env) (tid : Nat) : Option AppointmentTypeRec :=
  env.appointmentTypes.find? (fun t => t.id = tid)

def findWallet (s : ClinicState) (uid : UserId) : Option Wallet :=
  s.wallets.find? (fun w => w.user = uid)

def walletBalance (s : ClinicState) (uid : UserId) : Money :=
  match findWallet s uid with
  | some w => w.balance
  | none => 0

def findAppt (s : ClinicState) (aid : Nat) : Option Appointment :=
  s.appointments.find? (fun a => a.id = aid)

/-- Replace the appointment with the given id (in-place document update). -/
def updateAppt (s : ClinicState) (aid : Nat) (f : Appointment → Appointment) :
    ClinicState :=
  { s with appointments := s.appointments.map (fun a => if a.id = aid then f a else a) }

/-- Replace the queue item with the given id. -/
def updateQueueItem (s : ClinicState) (qid : Nat) (f : QueueItem → QueueItem) :
    ClinicState :=
  { s with queueItems := s.queueItems.map (fun q => if q.id = qid then f q else q) }

/-- `createNotification` (src/utils/notificationHelper.js): inserts an in-app
notification and fires external dispatch without awaiting it; every error is
caught internally and turned into `{success:false}`, so it never throws into
its caller.  `ok` is the oracle for whether the insert succeeded. -/
def createNotification (ok : Bool) (uid : UserId) (s : ClinicState) : ClinicState :=
  if ok then { s with notifications := s.notifications ++ [uid] } else s

/-- The errors thrown inside the modelled operations; constructors correspond
one-to-one to the distinct `throw new Error(...)` sites of the source. -/
inductive ApiErr where
  | mustBeSpecified          -- 'Doctor, hospital, and appointment type must be specified.'
  | invalidAppointmentType   -- 'Invalid appointment type specified.'
  | doctorNotFound           -- 'Specified doctor not found.'
  | hospitalNotFound         -- 'Specified hospital not found.'
  | patientNotFound          -- 'Specified patient not found.'
  | doctorDisabled           -- "The selected doctor's account has been disabled."
  | patientDisabled          -- "The patient's account has been disabled."
  | doctorUnavailable        -- 'The selected doctor is currently unavailable during this period.'
  | doctorNotAtHospital      -- 'Selected doctor does not work at this hospital.'
  | insufficientForPatient   -- 'Insufficient wallet balance for patient …'
  | walletNotFound           -- 'Wallet not found for this user.' (walletService)
  | insufficientWallet       -- 'Insufficient wallet balance.' (walletService)
  | duplicateKey             -- MongoDB E11000 from the (doctor,date,time) unique index
deriving DecidableEq, Repr

/-- The data handed to `walletService.createTransactionAndUpdateWallet`. -/
structure TransactionData where
  userId : UserId
  amount : Money
  direction : TxDirection
  transactionType : String
  description : String
  referenceId : String
  hospitalId : Option Nat := none
deriving DecidableEq, Repr

/-- `walletService.createTransactionAndUpdateWallet` / `performDbOperations`
(src/server/services/walletService.js lines 26–88): look up the wallet (error
if absent), reject a debit exceeding the balance, then apply the signed
balance change and append one `Completed` transaction — a single atomic unit
(the session either belongs to the caller or is rolled back wholesale). -/
def createTransactionAndUpdateWallet (txd : TransactionData) (s : ClinicState) :
    Except ApiErr ClinicState :=
  match findWallet s txd.userId with
  | none => .error .walletNotFound
  | some wallet =>
    let balanceChange : Money :=
      if txd.direction = .credit then txd.amount else -txd.amount
    if txd.direction = .debit ∧ wallet.balance < txd.amount then
      .error .insufficientWallet
    else
      let newTransaction : Transaction :=
        { wallet := wallet.user
          user := txd.userId
          hospital := txd.hospitalId
          amount := txd.amount
          direction := txd.direction
          transactionType := txd.transactionType
          description := txd.description
          referenceId := txd.referenceId }
      .ok { s with
              wallets := s.wallets.map (fun w =>
                if w.user = txd.userId then { w with balance := w.balance + balanceChange } else w)
              transactions := s.transactions ++ [newTransaction] }

/-! String helpers.  MongoDB sorts and JS `<` compare strings by code units;
for ASCII data this is plain lexicographic order on the characters. -/

def strLtAux : List Char → List Char → Bool
  | [], [] => false
  | [], _ :: _ => true
  | _ :: _, [] => false
  | a :: as, b :: bs =>
    if a.toNat < b.toNat then true
    else if b.toNat < a.toNat then false
    else strLtAux as bs

def strLt (a b : String) : Bool := strLtAux a.data b.data

def strLe (a b : String) : Bool := strLt a b || a == b

/-- Prefix test on character lists. -/
def listPrefixEq : List Char → List Char → Bool
  | [], _ => true
  | _ :: _, [] => false
  | a :: as, b :: bs => a = b && listPrefixEq as bs

/-- Substring test on character lists. -/
def containsSub (pat : List Char) : List Char → Bool
  | [] => listPrefixEq pat []
  | x :: xs => listPrefixEq pat (x :: xs) || containsSub pat xs

/-- JS `String.prototype.includes` (modelled on `String.data`, since the
core string-search functions are not kernel-reducible). -/
def strContains (s sub : String) : Bool := containsSub sub.data s.data

/-- Split a character list on a separator character (JS `split`). -/
def splitOnChar (c : Char) : List Char → List (List Char)
  | [] => [[]]
  | x :: xs =>
    let rest := splitOnChar c xs
    if x = c then [] :: rest
    else
      match rest with
      | [] => [[x]]
      | r :: rs => (x :: r) :: rs

/-- JS `trim` for the space-separated time strings handled here. -/
def trimChars (l : List Char) : List Char :=
  ((l.dropWhile (fun c => c = ' ')).reverse.dropWhile (fun c => c = ' ')).reverse

/-- The prefix of a character list up to (excluding) the first occurrence of
`pat`; the whole list when `pat` does not occur (mirrors `split(pat)[0]`). -/
def takeUntilSub (pat : List Char) : List Char → List Char
  | [] => []
  | x :: xs => if listPrefixEq pat (x :: xs) then [] else x :: takeUntilSub pat xs

/-- Decimal digits to a number (JS `Number(...)` on the digit strings that
occur in well-formed times; a non-digit yields `none`, JS `NaN`). -/
def natOfDigits? (l : List Char) : Option Nat :=
  match l with
  | [] => none
  | _ =>
    if l.all Char.isDigit then
      some (l.foldl (fun acc c => acc * 10 + (c.toNat - 48)) 0)
    else none

/-- Uppercase a character list (JS `toUpperCase`). -/
def upperChars (l : List Char) : List Char := l.map Char.toUpper

/-- JS `(count + 1).toString().padStart(3, '0')`. -/
def padStart3 (n : Nat) : String :=
  let s := toString n
  if s.length < 3 then String.mk (List.replicate (3 - s.length) '0') ++ s else s

/-- `doctor.name.en.charAt(0).toUpperCase()`; JS yields `''` on an empty
name, which never occurs for the stored doctor names. -/
def nameInitial (nameEn : String) : String :=
  String.mk [(nameEn.data.headD 'A').toUpper]

/-- A doctor unavailability episode covers `date`: `bookingDate >= start &&
bookingDate <= end` with `new Date` on `YYYY-MM-DD` strings, which agrees
with lexicographic comparison of the strings. -/
def inUnavailabilityEpisode (episodes : List (String × String)) (date : String) : Bool :=
  episodes.any (fun ep => strLe ep.1 date && strLe date ep.2)

/-- Time-of-day parsing as `moment(str, 'YYYY-MM-DD h:mm A')` (non-strict)
performs it for the conflict check: a `h:mm AM/PM` time is converted to
24-hour form (12 AM → 0, PM adds 12 below 12), a bare `HH:mm` time keeps its
hour because no meridiem token matches; out-of-range fields make the moment
invalid (`none`). -/
def parseTimeOfDay (t : String) : Option Nat :=
  let parts := splitOnChar ' ' (trimChars t.data)
  match parts with
  | [hm] =>
    match splitOnChar ':' hm with
    | [hs, ms] =>
      match natOfDigits? hs, natOfDigits? ms with
      | some h, some m => if h < 24 ∧ m < 60 then some (h * 60 + m) else none
      | _, _ => none
    | _ => none
  | [hm, modifier] =>
    match splitOnChar ':' hm with
    | [hs, ms] =>
      match natOfDigits? hs, natOfDigits? ms with
      | some h, some m =>
        let up := upperChars modifier
        let h' := if up = ['P', 'M'] ∧ h < 12 then h + 12
                  else if up = ['A', 'M'] ∧ h = 12 then 0 else h
        if h' < 24 ∧ m < 60 then some (h' * 60 + m) else none
      | _, _ => none
    | _ => none
  | _ => none

/-- `Math.abs(requestedMoment.diff(existingMoment, 'minutes'))` for two
times on the same calendar date. -/
def diffMinutes (a b : Nat) : Nat := if a ≤ b then b - a else a - b

/-- Active queue membership: `status: { $in: ['Waiting', 'Serving', 'Held'] }`. -/
def qActive (st : QStatus) : Bool :=
  st = .Waiting || st = .Serving || st = .Held

def hasActiveQueueEntry (s : ClinicState) (uid : UserId) : Bool :=
  s.queueItems.any (fun q => q.user = some uid && qActive q.status)

/-! ### Booking (`router.post('/')` in src/routes/appointments.js, lines 336–602) -/

/-- The request body of `POST /api/appointments` together with the
authenticated caller. -/
structure BookReq where
  callerId : UserId
  callerRole : String
  date : String
  time : String
  doctorId : Option Nat := none
  hospitalId : Option Nat := none
  appointmentTypeId : Option Nat := none
  force : Bool := false
  patientId : Option UserId := none
  cashPayment : Bool := false
  appointmentId : Option Nat := none
deriving DecidableEq, Repr

def staffRoles : List String := ["hospital staff", "hospital manager", "super admin"]

/-- The outcome of a route call: the HTTP status code sent, the id of a
created appointment (for 201), and the resulting store. -/
structure RouteResult where
  statusCode : Nat
  apptId : Option Nat
  state : ClinicState
deriving Repr

/-- Status code chosen by the booking route's catch block: duplicate-key
(11000) → 409; messages containing 'Insufficient', 'not found' or 'must be
specified' → 400; everything else → 500. -/
def bookErrStatus : ApiErr → Nat
  | .duplicateKey => 409
  | .mustBeSpecified => 400
  | .doctorNotFound => 400
  | .hospitalNotFound => 400
  | .patientNotFound => 400
  | .insufficientForPatient => 400
  | .walletNotFound => 400
  | .insufficientWallet => 400
  | .invalidAppointmentType => 500
  | .doctorDisabled => 500
  | .patientDisabled => 500
  | .doctorUnavailable => 500
  | .doctorNotAtHospital => 500

/-- The reference/validation prefix of the booking transaction body:
required ids, existence lookups, disabled-account checks, unavailability
episodes, and hospital membership, in source order.  Returns the resolved
appointment type, doctor and hospital id on success. -/
def validateBooking (env : Env) (req : BookReq) (targetUserId : UserId) :
    Except ApiErr (AppointmentTypeRec × UserRec × Nat) :=
  match req.doctorId, req.hospitalId, req.appointmentTypeId with
  | some doctorId, some hospitalId, some appointmentTypeId =>
    match findAppointmentType env appointmentTypeId with
    | none => .error .invalidAppointmentType
    | some appointmentType =>
      match findUser env doctorId with
      | none => .error .doctorNotFound
      | some doctor =>
        match findHospital env hospitalId with
        | none => .error .hospitalNotFound
        | some _hospital =>
          match findUser env targetUserId with
          | none => .error .patientNotFound
          | some patient =>
            if doctor.isDisabled then .error .doctorDisabled
            else if patient.isDisabled then .error .patientDisabled
            else if inUnavailabilityEpisode doctor.unavailabilityEpisodes req.date then
              .error .doctorUnavailable
            else if ¬ doctor.hospitals.contains hospitalId then
              .error .doctorNotAtHospital
            else .ok (appointmentType, doctor, hospitalId)
  | _, _, _ => .error .mustBeSpecified

/-- The booking route's queue-number generation: the doctor's name initial
plus the zero-padded count of the doctor's appointments on that date. -/
def bookQueueNumber (doctor : UserRec) (req : BookReq) (s : ClinicState) : String :=
  nameInitial doctor.nameEn ++
    padStart3 ((s.appointments.filter
      (fun a => a.doctor = doctor.id ∧ a.date = req.date)).length + 1)

/-- The appointment document handed to `Appointment.create`. -/
def bookNewAppt (req : BookReq) (targetUserId : UserId)
    (appointmentType : AppointmentTypeRec) (doctor : UserRec) (hospitalId : Nat)
    (s : ClinicState) : Appointment :=
  { id := s.nextApptId
    user := targetUserId
    doctor := doctor.id
    hospital := hospitalId
    appointmentType := appointmentType.id
    date := req.date
    time := req.time
    cost := appointmentType.cost
    status := .Upcoming
    queueNumber := some (bookQueueNumber doctor req s) }

/-- `Appointment.create` plus the same-day queue seeding that follows it. -/
def bookInsert (env : Env) (req : BookReq) (targetUserId : UserId)
    (appointmentType : AppointmentTypeRec) (doctor : UserRec) (hospitalId : Nat)
    (s : ClinicState) : ClinicState :=
  let s1 := { s with
                appointments := s.appointments ++
                  [bookNewAppt req targetUserId appointmentType doctor hospitalId s]
                nextApptId := s.nextApptId + 1 }
  if req.date = env.today ∧ ¬ hasActiveQueueEntry s1 targetUserId then
    { s1 with
        queueItems := s1.queueItems ++ [{
          id := s1.nextQueueId
          user := some targetUserId
          doctor := doctor.id
          hospital := hospitalId
          queueNumber := bookQueueNumber doctor req s
          status := .Waiting
          checkInTime := s1.clock }]
        nextQueueId := s1.nextQueueId + 1
        clock := s1.clock + 1 }
  else s1

/-- The cash-payment deposit recorded when hospital staff collect the fee at
the counter. -/
def bookCashData (targetUserId : UserId) (appointmentType : AppointmentTypeRec)
    (hospitalId : Nat) (s : ClinicState) : TransactionData :=
  { userId := targetUserId
    amount := appointmentType.cost
    direction := .credit
    transactionType := "Deposit"
    description := "Cash payment collected at hospital counter for appointment."
    referenceId := "CASH_" ++ toString s.clock
    hospitalId := some hospitalId }

/-- The appointment-fee debit recorded for the booking. -/
def bookDebitData (targetUserId : UserId) (appointmentType : AppointmentTypeRec)
    (doctor : UserRec) (hospitalId : Nat) (apptId : Nat) : TransactionData :=
  { userId := targetUserId
    amount := appointmentType.cost
    direction := .debit
    transactionType := "Appointment Fee"
    description := "Fee for " ++ appointmentType.nameEn ++ " with Dr. " ++ doctor.nameEn
    referenceId := toString apptId
    hospitalId := some hospitalId }

/-- The mutation suffix of the booking transaction body, after validation:
optional cash deposit, balance check, the duplicate-key guard of the
`(doctor, date, time)` unique index (which covers every status), appointment
creation with same-day queue seeding, ledger debit, and the confirmation
notification. -/
def bookCore (env : Env) (req : BookReq) (targetUserId : UserId)
    (appointmentType : AppointmentTypeRec) (doctor : UserRec) (hospitalId : Nat)
    (s : ClinicState) : Except ApiErr (Nat × ClinicState) :=
  match (if req.cashPayment ∧ staffRoles.contains req.callerRole then
           createTransactionAndUpdateWallet
             (bookCashData targetUserId appointmentType hospitalId s) s
         else .ok s) with
  | .error e => .error e
  | .ok s =>
  match findWallet s targetUserId with
  | none => .error .insufficientForPatient
  | some currentWalletState =>
    if currentWalletState.balance < appointmentType.cost then
      .error .insufficientForPatient
    -- Appointment.create: the unique index on (doctor, date, time) rejects
    -- a second document with the same triple, whatever its status.
    else if s.appointments.any
        (fun a => a.doctor = doctor.id ∧ a.date = req.date ∧ a.time = req.time) then
      .error .duplicateKey
    else
      match createTransactionAndUpdateWallet
          (bookDebitData targetUserId appointmentType doctor hospitalId s.nextApptId)
          (bookInsert env req targetUserId appointmentType doctor hospitalId s) with
      | .error e => .error e
      | .ok s2 => .ok (s.nextApptId, createNotification true targetUserId s2)

/-- The soft 60-minute conflict scan: among the target's `Upcoming`
appointments on the same date (in storage order), the first one whose time
parses and lies strictly within 60 minutes of the requested time. -/
def softConflict (req : BookReq) (targetUserId : UserId) (s : ClinicState) :
    Option Appointment :=
  match parseTimeOfDay req.time with
  | none => none
  | some requestedM =>
    (s.appointments.filter
      (fun a => a.user = targetUserId ∧ a.status = ApptStatus.Upcoming ∧ a.date = req.date)).find?
      (fun appt =>
        !(some appt.id = req.appointmentId : Bool) &&
        match parseTimeOfDay appt.time with
        | none => false
        | some existingM => diffMinutes requestedM existingM < 60)

/-- `POST /api/appointments` (src/routes/appointments.js lines 336–602):
role resolution, exact-duplicate hard stop (force-independent), soft
60-minute conflict check (unless forced), then the atomic transaction
(`validateBooking` + `bookCore`); on any error inside the transaction the
session aborts and the store is left as it was.  The target-patient
resolution (staff roles book on behalf of `patientId`, patients for
themselves, others 403) is split out as `resolveTargetUser`. -/
def resolveTargetUser (req : BookReq) : Except Nat UserId :=
  if staffRoles.contains req.callerRole then
    match req.patientId with
    | none => .error 400         -- 'Patient ID is required for staff booking.'
    | some pid => .ok pid
  else if req.callerRole ≠ "patient" then .error 403
  else .ok req.callerId

/-- The `POST /api/appointments` route handler assembled from the pieces
documented above. -/
def bookAppointment (env : Env) (req : BookReq) (s : ClinicState) : RouteResult :=
  match resolveTargetUser req with
  | .error code => { statusCode := code, apptId := none, state := s }
  | .ok targetUserId =>
    -- Hard stop: exact duplicate (same patient+doctor+date+time, Upcoming),
    -- blocked even when force=true.
    if s.appointments.any (fun a =>
        a.user = targetUserId ∧ a.status = ApptStatus.Upcoming ∧
        a.date = req.date ∧ a.time = req.time ∧ some a.doctor = req.doctorId) then
      { statusCode := 409, apptId := none, state := s }
    else if ¬ req.force ∧ (softConflict req targetUserId s).isSome then
      { statusCode := 409, apptId := none, state := s }
    else
      match validateBooking env req targetUserId with
      | .error e => { statusCode := bookErrStatus e, apptId := none, state := s }
      | .ok (appointmentType, doctor, hospitalId) =>
        match bookCore env req targetUserId appointmentType doctor hospitalId s with
        | .error e => { statusCode := bookErrStatus e, apptId := none, state := s }
        | .ok (apptId, s') => { statusCode := 201, apptId := some apptId, state := s' }

/-! ### Status update / patient cancellation (`router.put('/:id')`, lines 765–871) -/

/-- Errors of the `PUT /api/appointments/:id` transaction body. -/
inductive UpdateErr where
  | apptNotFound             -- 'Appointment not found.'
  | hospitalPopulateFailed   -- populate('hospital') yielded null; accessing ._id throws
  | notAuthorizedUpdate      -- 'Not authorized to update this appointment.'
  | patientsCanOnlyCancel    -- 'Patients can only cancel appointments.'
  | wallet (e : ApiErr)      -- rethrown from walletService
deriving DecidableEq, Repr

/-- Status code chosen by that route's catch block: 'Not authorized' /
'can only cancel' → 403, 'not found' → 404 (this also catches the wallet
service's 'Wallet not found for this user.'), everything else → 500. -/
def updateErrStatus : UpdateErr → Nat
  | .apptNotFound => 404
  | .notAuthorizedUpdate => 403
  | .patientsCanOnlyCancel => 403
  | .wallet .walletNotFound => 404
  | .wallet _ => 500
  | .hospitalPopulateFailed => 500

/-- Transaction body of `PUT /api/appointments/:id`: authorization, the
status write, and the once-only refund of
`cost × hospital.refundPolicyPercentage / 100` guarded by `isRefunded`.
Note the route never requires the current status to be `Upcoming`.
`save` leaves the indexed `(doctor, date, time)` triple untouched here, so
the unique index cannot fire. -/
def updateAppointmentStatusTx (env : Env) (callerId : UserId) (callerRole : String)
    (callerHospitals : List Nat) (apptId : Nat) (newStatus : ApptStatus)
    (notifOk : Bool) (s : ClinicState) : Except UpdateErr ClinicState :=
  match findAppt s apptId with
  | none => .error .apptNotFound
  | some appt =>
    match findHospital env appt.hospital with
    | none => .error .hospitalPopulateFailed
    | some hospital =>
      let isPatientOwner := callerRole = "patient" ∧ appt.user = callerId
      let isAdminOfHospital :=
        staffRoles.contains callerRole ∧ callerHospitals.contains appt.hospital
      if ¬ isPatientOwner ∧ ¬ isAdminOfHospital then .error .notAuthorizedUpdate
      else if isPatientOwner ∧ newStatus ≠ ApptStatus.Cancelled then
        .error .patientsCanOnlyCancel
      else
        let refundBranch := newStatus = ApptStatus.Cancelled ∧ ¬ appt.isRefunded
        let refundAmount := appt.cost * (hospital.refundPolicyPercentage / 100)
        let ledgerStep : Except UpdateErr ClinicState :=
          if refundBranch ∧ refundAmount > 0 then
            match createTransactionAndUpdateWallet
                { userId := appt.user
                  amount := refundAmount
                  direction := .credit
                  transactionType := "Refund"
                  description := "Refund for cancelled appointment"
                  referenceId := toString appt.id
                  hospitalId := some appt.hospital } s with
            | .error e => .error (.wallet e)
            | .ok s1 => .ok s1
          else .ok s
        match ledgerStep with
        | .error e => .error e
        | .ok s1 =>
          let newAppt :=
            if refundBranch then { appt with status := newStatus, isRefunded := true }
            else { appt with status := newStatus }
          let s2 := updateAppt s1 apptId (fun _ => newAppt)
          .ok (if newStatus = ApptStatus.Cancelled then
                 createNotification notifOk appt.user s2
               else s2)

/-- `PUT /api/appointments/:id`: run the transaction body; on error the
session aborts (store unchanged) and the catch block picks the status code. -/
def updateAppointmentStatus (env : Env) (callerId : UserId) (callerRole : String)
    (callerHospitals : List Nat) (apptId : Nat) (newStatus : ApptStatus)
    (notifOk : Bool) (s : ClinicState) : RouteResult :=
  match updateAppointmentStatusTx env callerId callerRole callerHospitals
      apptId newStatus notifOk s with
  | .error e => { statusCode := updateErrStatus e, apptId := none, state := s }
  | .ok s' => { statusCode := 200, apptId := some apptId, state := s' }

/-! ### Doctor-cancellation resolution (`router.put('/:id/resolve-cancellation')`, lines 664–760) -/

/-- Errors of the resolve-cancellation transaction body; the route maps
every one of them to a 400 response. -/
inductive ResolveErr where
  | apptNotFound        -- 'Appointment not found'
  | notAuthorized       -- 'Not authorized'
  | notDoctorCancelled  -- 'This appointment is not cancelled by doctor'
  | alreadyResolved     -- 'Resolution already processed'
  | newDoctorRequired   -- 'New doctor ID is required for redirection'
  | newSlotRequired     -- 'New slot (date and time) is required'
  | invalidAction       -- 'Invalid action'
  | wallet (e : ApiErr) -- rethrown from walletService
  | duplicateSave       -- E11000 when save() moves onto an occupied (doctor,date,time)
deriving DecidableEq, Repr

/-- `save()` after the indexed `(doctor, date, time)` fields were modified:
the unique index rejects the write when another appointment occupies the
same triple. -/
def saveApptUnique (s : ClinicState) (a : Appointment) : Except ResolveErr ClinicState :=
  if s.appointments.any
      (fun b => b.id ≠ a.id ∧ b.doctor = a.doctor ∧ b.date = a.date ∧ b.time = a.time) then
    .error .duplicateSave
  else .ok (updateAppt s a.id (fun _ => a))

/-- Transaction body of `PUT /api/appointments/:id/resolve-cancellation`:
ownership, the `DoctorCancelled`/`Pending` entry guards, then one of the
three resolutions (`Refund` credits 100 % of the stored cost — the hospital
refund policy is never consulted). -/
def resolveCancellationTx (callerId : UserId) (apptId : Nat) (action : String)
    (newDoctorId : Option UserId) (newSlot : Option (Option String × Option String))
    (notifOk : Bool) (s : ClinicState) : Except ResolveErr ClinicState :=
  match findAppt s apptId with
  | none => .error .apptNotFound
  | some appt =>
    if appt.user ≠ callerId then .error .notAuthorized
    else if appt.status ≠ ApptStatus.DoctorCancelled then .error .notDoctorCancelled
    else if appt.cancellationResolution ≠ Resolution.Pending then .error .alreadyResolved
    else if action = "Refund" then
      let refundAmount := appt.cost
      let ledgerStep : Except ResolveErr ClinicState :=
        if refundAmount > 0 then
          match createTransactionAndUpdateWallet
              { userId := appt.user
                amount := refundAmount
                direction := .credit
                transactionType := "Refund"
                description := "Full refund for doctor apology"
                referenceId := toString appt.id
                hospitalId := some appt.hospital } s with
          | .error e => .error (.wallet e)
          | .ok s1 => .ok s1
        else .ok s
      match ledgerStep with
      | .error e => .error e
      | .ok s1 =>
        let s2 := updateAppt s1 apptId (fun a =>
          { a with status := .Cancelled, isRefunded := true,
                   cancellationResolution := .Refunded })
        .ok (createNotification notifOk appt.user s2)
    else if action = "Redirect" then
      match newDoctorId with
      | none => .error .newDoctorRequired
      | some nd =>
        let a' := { appt with
                      doctor := nd
                      status := ApptStatus.Upcoming
                      cancellationResolution := Resolution.Redirected }
        let a' := match newSlot with
          | some (d?, t?) => { a' with
                                date := d?.getD a'.date
                                time := t?.getD a'.time }
          | none => a'
        saveApptUnique s a'
    else if action = "Reschedule" then
      match newSlot with
      | some (some d, some t) =>
        saveApptUnique s { appt with
                             date := d
                             time := t
                             status := ApptStatus.Upcoming
                             cancellationResolution := Resolution.Rescheduled }
      | _ => .error .newSlotRequired
    else .error .invalidAction

/-- `PUT /api/appointments/:id/resolve-cancellation`: run the transaction
body; any error aborts the session and yields a 400 response. -/
def resolveCancellation (callerId : UserId) (apptId : Nat) (action : String)
    (newDoctorId : Option UserId) (newSlot : Option (Option String × Option String))
    (notifOk : Bool) (s : ClinicState) : Nat × ClinicState :=
  match resolveCancellationTx callerId apptId action newDoctorId newSlot notifOk s with
  | .error _ => (400, s)
  | .ok s' => (200, s')

/-! ### Queue service (src/server/services/accountDisableService.js, queue part) -/

/-- Errors thrown by the queue service functions. -/
inductive QueueErr where
  | alreadyInQueue        -- 'You are already in a queue.' / 'Patient is already in the queue.'
  | doctorNotFound        -- 'Doctor not found or not associated with this hospital.'
  | apptNotFound          -- 'Appointment not found'
deriving DecidableEq, Repr

/-- `joinQueue(userId, doctorId, hospitalId)` (lines 528–572): refuse when the
patient has an active (`Waiting|Serving|Held`) entry anywhere; validate the
doctor; reuse the queue number of a same-day `Upcoming` appointment with this
doctor/hospital when it has one, otherwise generate one from the count of the
doctor's queue items at the hospital (persisting it back onto the
appointment); then create the queue item — with no explicit `status`, so the
schema default `Waiting` applies — linked to the appointment if present. -/
def joinQueue (env : Env) (userId : UserId) (doctorId : UserId) (hospitalId : Nat)
    (s : ClinicState) : Except QueueErr ClinicState :=
  if hasActiveQueueEntry s userId then .error .alreadyInQueue
  else
    match findUser env doctorId with
    | none => .error .doctorNotFound
    | some doctor =>
      if doctor.role ≠ "doctor" ∨ ¬ doctor.hospitals.contains hospitalId then
        .error .doctorNotFound
      else
        let todaysAppointment := s.appointments.find? (fun a =>
          a.user = userId ∧ a.doctor = doctorId ∧ a.hospital = hospitalId ∧
          a.status = ApptStatus.Upcoming ∧ a.date = env.today)
        let generated :=
          nameInitial doctor.nameEn ++
            padStart3 ((s.queueItems.filter
              (fun q => q.doctor = doctorId ∧ q.hospital = hospitalId)).length + 1)
        let queueNumber :=
          match todaysAppointment with
          | some a => match a.queueNumber with
            | some qn => qn
            | none => generated
          | none => generated
        let s :=
          match todaysAppointment with
          | some a =>
            if a.queueNumber = none then
              updateAppt s a.id (fun b => { b with queueNumber := some queueNumber })
            else s
          | none => s
        .ok { s with
                queueItems := s.queueItems ++ [{
                  id := s.nextQueueId
                  user := some userId
                  doctor := doctorId
                  hospital := hospitalId
                  queueNumber := queueNumber
                  checkInTime := s.clock
                  appointment := todaysAppointment.map (fun a => a.id) }]
                nextQueueId := s.nextQueueId + 1
                clock := s.clock + 1 }

/-- `leaveQueue(userId)` (lines 574–580): move the patient's first
`Waiting|Held` entry to `Left`; no-op when none exists. -/
def leaveQueue (userId : UserId) (s : ClinicState) : ClinicState :=
  match s.queueItems.find? (fun q =>
      q.user = some userId ∧ (q.status = QStatus.Waiting ∨ q.status = QStatus.Held)) with
  | none => s
  | some item => updateQueueItem s item.id (fun q => { q with status := .Left })

/-- The accumulator of a `sort: { checkInTime: 1 }` scan: keep the earlier
`checkInTime`, earlier storage position winning ties. -/
def pickEarlier (best : Option QueueItem) (q : QueueItem) : Option QueueItem :=
  match best with
  | none => some q
  | some b => if q.checkInTime < b.checkInTime then some q else some b

/-- `findOneAndUpdate(..., sort: { checkInTime: 1 })`: the matching item with
the smallest `checkInTime`, earlier storage position winning ties. -/
def earliestWaiting (s : ClinicState) (doctorId : UserId) : Option QueueItem :=
  (s.queueItems.filter (fun q =>
    q.doctor = doctorId ∧ q.status = QStatus.Waiting)).foldl pickEarlier none

/-- Step 1 of `callNextPatient`: finish the current `Serving` entry (set it
`Done`) and, when it is linked to a registered patient, mark that patient's
first `Upcoming` appointment with this doctor dated today as `Completed`. -/
def callNextFinishServing (env : Env) (doctorId : UserId) (s : ClinicState) :
    ClinicState :=
  match s.queueItems.find? (fun q =>
      q.doctor = doctorId ∧ q.status = QStatus.Serving) with
  | none => s
  | some currentServing =>
    let s := updateQueueItem s currentServing.id (fun q => { q with status := .Done })
    match currentServing.user with
    | none => s
    | some u =>
      match s.appointments.find? (fun a =>
          a.user = u ∧ a.doctor = doctorId ∧ a.status = ApptStatus.Upcoming ∧
          a.date = env.today) with
      | none => s
      | some a => updateAppt s a.id (fun b => { b with status := .Completed })

/-- Step 2 of `callNextPatient`: promote the earliest-`checkInTime`
`Waiting` entry to `Serving`. -/
def callNextPromote (doctorId : UserId) (s : ClinicState) : ClinicState :=
  match earliestWaiting s doctorId with
  | none => s
  | some nextPatient =>
    updateQueueItem s nextPatient.id (fun q => { q with status := .Serving })

/-- Step 3 of `callNextPatient`: best-effort "you are next" notification to
the entry that is now the earliest remaining `Waiting` one, when it is
linked to a registered patient. -/
def callNextNotify (doctorId : UserId) (notifOk : Bool) (s : ClinicState) :
    ClinicState :=
  match earliestWaiting s doctorId with
  | none => s
  | some upNext =>
    match upNext.user with
    | none => s
    | some u => createNotification notifOk u s

/-- `callNextPatient(doctorId)` (lines 582–637), steps 1–3 in source order
(`createNotification` swallows its own failures, surfaced as `notifOk`). -/
def callNextPatient (env : Env) (doctorId : UserId) (notifOk : Bool)
    (s : ClinicState) : ClinicState :=
  callNextNotify doctorId notifOk (callNextPromote doctorId (callNextFinishServing env doctorId s))

/-- `checkInAppointment(appointmentId)` (lines 738–773): look up the
appointment; refuse when an active entry for **the appointment's doctor and
patient** exists (other doctors' queues are not consulted); reuse the stored
ticket number or generate and persist one; insert a `Waiting` entry. -/
def checkInAppointment (env : Env) (appointmentId : Nat) (s : ClinicState) :
    Except QueueErr ClinicState :=
  match findAppt s appointmentId with
  | none => .error .apptNotFound
  | some appointment =>
    if s.queueItems.any (fun q =>
        q.doctor = appointment.doctor ∧ q.user = some appointment.user ∧
        qActive q.status) then
      .error .alreadyInQueue
    else
      let doctorName :=
        match findUser env appointment.doctor with
        | some d => d.nameEn
        | none => ""
      let generated :=
        nameInitial doctorName ++
          padStart3 ((s.queueItems.filter (fun q =>
            q.doctor = appointment.doctor ∧ q.hospital = appointment.hospital)).length + 1)
      let queueNumber :=
        match appointment.queueNumber with
        | some qn => qn
        | none => generated
      let s :=
        if appointment.queueNumber = none then
          updateAppt s appointment.id (fun b => { b with queueNumber := some queueNumber })
        else s
      .ok { s with
              queueItems := s.queueItems ++ [{
                id := s.nextQueueId
                user := some appointment.user
                doctor := appointment.doctor
                hospital := appointment.hospital
                queueNumber := queueNumber
                status := .Waiting
                checkInTime := s.clock }]
              nextQueueId := s.nextQueueId + 1
              clock := s.clock + 1 }

/-! ### Doctor reminder service (src/unnamed/part_005, `DoctorReminderService`) -/

/-- A concrete instant as the reminder service handles it: the calendar-day
string (`YYYY-MM-DD`, where lexicographic order is chronological order) and
minutes within the day.  Window bounds such as `now + 24h ± 30min` are
computed by the moment library and enter the model as inputs. -/
structure Instant where
  day : String
  minutes : Nat
deriving DecidableEq, Repr

/-- Chronological order on instants (strict). -/
def Instant.before (a b : Instant) : Bool :=
  strLt a.day b.day || (a.day == b.day && a.minutes < b.minutes)

/-- `moment.isBetween(start, end, null, '[]')` — inclusive on both ends. -/
def Instant.between (x start stop : Instant) : Bool :=
  !(x.before start) && !(stop.before x)

/-- `parseAppointmentDateTime` (part_005 lines 256–283): a time containing a
(case-sensitive) `AM`/`PM` marker is 12-hour (12 AM → 0, PM adds 12 below 12,
a missing minutes field counts as 0); otherwise the `HH:mm` hour is kept.
Out-of-range results make the combined moment invalid (`none`), which every
caller treats as out-of-window. -/
def parseApptMinutes (timeStr : String) : Option Nat :=
  let t := trimChars timeStr.data
  if containsSub "AM".data t ∨ containsSub "PM".data t then
    let isPM := containsSub "PM".data t
    let mark : List Char := if isPM then "PM".data else "AM".data
    let timePart := trimChars (takeUntilSub mark t)
    match splitOnChar ':' timePart with
    | [hs, ms] =>
      match natOfDigits? hs with
      | none => none
      | some h =>
        let m := (natOfDigits? (trimChars ms)).getD 0
        let h' := if isPM ∧ h ≠ 12 then h + 12
                  else if ¬ isPM ∧ h = 12 then 0 else h
        if h' < 24 ∧ m < 60 then some (h' * 60 + m) else none
    | [hs] =>
      match natOfDigits? hs with
      | none => none
      | some h =>
        let h' := if isPM ∧ h ≠ 12 then h + 12
                  else if ¬ isPM ∧ h = 12 then 0 else h
        if h' < 24 then some (h' * 60) else none
    | _ => none
  else
    match splitOnChar ':' t with
    | [hs, ms] =>
      match natOfDigits? hs with
      | none => none
      | some h =>
        let m := (natOfDigits? (trimChars ms)).getD 0
        if h < 24 ∧ m < 60 then some (h * 60 + m) else none
    | _ => none

def parseAppointmentDateTime (date time : String) : Option Instant :=
  (parseApptMinutes time).map (fun m => { day := date, minutes := m })

/-- The per-class sent flag (`doctorReminder24hSent` / `doctorReminder1hSent`). -/
def reminderFlag (is24h : Bool) (a : Appointment) : Bool :=
  if is24h then a.doctorReminder24hSent else a.doctorReminder1hSent

/-- The per-class sent-at timestamp (`doctorReminder24hSentAt` / `…1hSentAt`). -/
def reminderSentAt (is24h : Bool) (a : Appointment) : Option Nat :=
  if is24h then a.doctorReminder24hSentAt else a.doctorReminder1hSentAt

/-- The appointment as persisted after a successful dispatch of the given
class: the `…Sent` flag together with its `…SentAt` timestamp. -/
def markReminderSent (is24h : Bool) (nowStamp : Nat) (a : Appointment) : Appointment :=
  if is24h then
    { a with doctorReminder24hSent := true, doctorReminder24hSentAt := some nowStamp }
  else
    { a with doctorReminder1hSent := true, doctorReminder1hSentAt := some nowStamp }

/-- `sendDoctorReminder(appointment, reminderType)` (part_005 lines 292–424):
eligibility checks in source order (doctor missing/disabled/inactive, global
reminder preference, per-class preference), then the external dispatch —
`sendOk` is the oracle for its `success` flag — and, only on success, the
persistence of the `…Sent` flag with its sent-at timestamp.  Returns the
updated appointment and the dispatch attempts it made (id, success). -/
def sendDoctorReminder (env : Env) (sendOk : Nat → Bool) (is24h : Bool)
    (nowStamp : Nat) (a : Appointment) : Appointment × List (Nat × Bool) :=
  match findUser env a.doctor with
  | none => (a, [])
  | some doctor =>
    if doctor.isDisabled ∨ ¬ doctor.isActive then (a, [])
    else if ¬ doctor.reminderPrefEnabled then (a, [])
    else if is24h ∧ ¬ doctor.reminderPref24h then (a, [])
    else if ¬ is24h ∧ ¬ doctor.reminderPref1h then (a, [])
    else
      let success := sendOk a.id
      let a' := if success then markReminderSent is24h nowStamp a else a
      (a', [(a.id, success)])

/-- Whether the pass's candidate query selects this appointment:
`{ status: 'Upcoming', doctorReminderNNSent: false }`. -/
def reminderCandidate (is24h : Bool) (a : Appointment) : Bool :=
  a.status = ApptStatus.Upcoming &&
    (if is24h then !a.doctorReminder24hSent else !a.doctorReminder1hSent)

/-- One candidate step of `process24HourReminders` / `process1HourReminders`
(part_005 lines 430–594): non-candidates are untouched; a candidate whose
date+time does not parse, lies outside `[startW, endW]`, or is already in the
past is skipped; otherwise `sendDoctorReminder` runs. -/
def processReminderOne (env : Env) (sendOk : Nat → Bool) (is24h : Bool)
    (now startW endW : Instant) (nowStamp : Nat) (a : Appointment) :
    Appointment × List (Nat × Bool) :=
  if ¬ reminderCandidate is24h a then (a, [])
  else
    match parseAppointmentDateTime a.date a.time with
    | none => (a, [])
    | some inst =>
      if ¬ inst.between startW endW then (a, [])
      else if inst.before now then (a, [])
      else sendDoctorReminder env sendOk is24h nowStamp a

/-- A full reminder pass over the appointment collection, in storage order.
Returns the updated collection and the concatenated dispatch log. -/
def processReminderPass (env : Env) (sendOk : Nat → Bool) (is24h : Bool)
    (now startW endW : Instant) (nowStamp : Nat) (appts : List Appointment) :
    List Appointment × List (Nat × Bool) :=
  match appts with
  | [] => ([], [])
  | a :: rest =>
    let (a', log) := processReminderOne env sendOk is24h now startW endW nowStamp a
    let (rest', logs) := processReminderPass env sendOk is24h now startW endW nowStamp rest
    (a' :: rest', log ++ logs)

/-- `process24HourReminders`: the 24-hour pass with its
`[now+24h−30min, now+24h+30min]` window supplied by the caller. -/
def process24HourReminders (env : Env) (sendOk : Nat → Bool)
    (now startW endW : Instant) (nowStamp : Nat) (appts : List Appointment) :
    List Appointment × List (Nat × Bool) :=
  processReminderPass env sendOk true now startW endW nowStamp appts

/-- `process1HourReminders`: the 1-hour pass with its
`[now+1h−7min, now+1h+7min]` window supplied by the caller. -/
def process1HourReminders (env : Env) (sendOk : Nat → Bool)
    (now startW endW : Instant) (nowStamp : Nat) (appts : List Appointment) :
    List Appointment × List (Nat × Bool) :=
  processReminderPass env sendOk false now startW endW nowStamp appts

/-- Number of successful dispatches recorded for one appointment id. -/
def sentCount (log : List (Nat × Bool)) (aid : Nat) : Nat :=
  (log.filter (fun e => e.1 = aid ∧ e.2 = true)).length


/-! ### Slot availability (`router.get('/availability/doctor/:doctorId')`, lines 944–1099) -/

/-- The inline `timeToMinutes` of the availability route: a string without an
`AM`/`PM` marker is 24-hour `HH:mm`; otherwise `h:mm AM|PM` (PM adds 12 below
12, 12 AM → 0).  Malformed strings (JS `NaN`) are outside the model's scope;
the stored times are produced by `minutesToTime` below or entered as `HH:mm`. -/
def timeToMinutes (timeStr : String) : Nat :=
  let is24Hour := !(strContains timeStr "AM") && !(strContains timeStr "PM")
  if is24Hour then
    match splitOnChar ':' timeStr.data with
    | [hs, ms] => ((natOfDigits? hs).getD 0) * 60 + ((natOfDigits? ms).getD 0)
    | _ => 0
  else
    match splitOnChar ' ' timeStr.data with
    | [hm, modifier] =>
      match splitOnChar ':' hm with
      | [hs, ms] =>
        let h := (natOfDigits? hs).getD 0
        let m := (natOfDigits? ms).getD 0
        let h' := if upperChars modifier = ['P', 'M'] ∧ h < 12 then h + 12
                  else if upperChars modifier = ['A', 'M'] ∧ h = 12 then 0 else h
        h' * 60 + m
      | _ => 0
    | _ => 0

/-- JS `mins.toString().padStart(2, '0')`. -/
def padStart2 (n : Nat) : String :=
  if n < 10 then "0" ++ toString n else toString n

/-- The inline `minutesToTime` of the availability route. -/
def minutesToTime (minutes : Nat) : String :=
  let hours := minutes / 60
  let mins := minutes % 60
  let ampm := if hours ≥ 12 then "PM" else "AM"
  let formattedHours := if hours % 12 = 0 then 12 else hours % 12
  toString formattedHours ++ ":" ++ padStart2 mins ++ " " ++ ampm

/-- Round up to the next multiple of 5 minutes (the route's `remainder`
adjustment of `currentMinutes + bookingBuffer`). -/
def roundUp5 (n : Nat) : Nat :=
  let remainder := n % 5
  if remainder = 0 then n else n + (5 - remainder)

/-- Stable insertion into a `le`-sorted list. -/
def insertSorted (le : α → α → Bool) (x : α) : List α → List α
  | [] => [x]
  | y :: ys => if le x y then x :: y :: ys else y :: insertSorted le x ys

def sortBy (le : α → α → Bool) (l : List α) : List α :=
  l.foldr (insertSorted le) []

/-- `Appointment.find(...).sort({ time: 1 })`: MongoDB orders the string
field by raw byte/code-unit comparison, i.e. lexicographically — **not**
chronologically (`"10:00 AM"` sorts before `"9:00 AM"`). -/
def sortByTimeString (l : List Appointment) : List Appointment :=
  sortBy (fun a b => strLe a.time b.time) l

inductive AvailResult where
  | notFoundDoctorOrType                          -- 404
  | notAvailableDate                              -- unavailability episode
  | notAvailableDay                               -- no working window that day/hospital
  | scheduleFull                                  -- 'Doctor schedule is full for this day.'
  | available (nextAvailableTime : String) (queuePosition : Nat)
deriving DecidableEq, Repr

/-- `GET /api/appointments/availability/doctor/:doctorId`: working-window
resolution, midnight wrap (`end ≤ start` ⇒ `end + 24h`), next-slot
computation from the lexicographically-last existing `Upcoming` appointment,
the same-day `now + 15min` buffer rounded up to 5 minutes, and the
schedule-full check.  `dayOfWeek` is `moment(date).format('dddd')`, supplied
by the caller of the model. -/
def getDoctorAvailability (env : Env) (doctorId : UserId) (date dayOfWeek : String)
    (appointmentTypeId hospitalId : Nat) (s : ClinicState) : AvailResult :=
  match findUser env doctorId, findAppointmentType env appointmentTypeId with
  | some doctor, some appointmentType =>
    let existingAppointments := sortByTimeString (s.appointments.filter (fun a =>
      a.doctor = doctorId ∧ a.hospital = hospitalId ∧ a.date = date ∧
      a.status = ApptStatus.Upcoming))
    if inUnavailabilityEpisode doctor.unavailabilityEpisodes date then
      .notAvailableDate
    else
      match doctor.availability.find? (fun d =>
          d.hospital.isSome && d.hospital = some hospitalId && d.dayOfWeek = dayOfWeek) with
      | none => .notAvailableDay
      | some dayAvailability =>
        if ¬ dayAvailability.isAvailable then .notAvailableDay
        else
          let doctorStartMinutes := timeToMinutes dayAvailability.startTime
          let doctorEndMinutes0 := timeToMinutes dayAvailability.endTime
          let doctorEndMinutes :=
            if doctorEndMinutes0 ≤ doctorStartMinutes then doctorEndMinutes0 + 24 * 60
            else doctorEndMinutes0
          let requestedDuration := appointmentType.duration
          let nextSlot0 :=
            match existingAppointments.getLast? with
            | none => doctorStartMinutes
            | some lastAppointment =>
              let lastApptStart := timeToMinutes lastAppointment.time
              let lastApptDuration :=
                match findAppointmentType env lastAppointment.appointmentType with
                | some t => t.duration
                | none => 30
              max doctorStartMinutes (lastApptStart + lastApptDuration)
          let nextSlotStartMinutes :=
            if date = env.today ∧ nextSlot0 < env.nowMinutes + 15 then
              roundUp5 (env.nowMinutes + 15)
            else nextSlot0
          if doctorEndMinutes < nextSlotStartMinutes + requestedDuration then
            .scheduleFull
          else
            .available (minutesToTime nextSlotStartMinutes) (existingAppointments.length + 1)
  | _, _ => .notFoundDoctorOrType

/-- The slot computation as claim C6 words it (spec §4.2): existing `Upcoming`
appointments ordered **chronologically**, the slot is
`max(window.start, last.start + last.duration)`, on the current date it is
floored to `now + 15` rounded up to the nearest 5 minutes, and `ScheduleFull`
exactly when slot + duration exceeds the window end (with `end ≤ start`
treated as `end + 24h`).  Stated for comparison with the implementation. -/
def getDoctorAvailabilityClaimC6 (env : Env) (doctorId : UserId) (date dayOfWeek : String)
    (appointmentTypeId hospitalId : Nat) (s : ClinicState) : AvailResult :=
  match findUser env doctorId, findAppointmentType env appointmentTypeId with
  | some doctor, some appointmentType =>
    let existingAppointments := sortBy
      (fun a b => timeToMinutes a.time ≤ timeToMinutes b.time)
      (s.appointments.filter (fun a =>
        a.doctor = doctorId ∧ a.hospital = hospitalId ∧ a.date = date ∧
        a.status = ApptStatus.Upcoming))
    if inUnavailabilityEpisode doctor.unavailabilityEpisodes date then
      .notAvailableDate
    else
      match doctor.availability.find? (fun d =>
          d.hospital.isSome && d.hospital = some hospitalId && d.dayOfWeek = dayOfWeek) with
      | none => .notAvailableDay
      | some dayAvailability =>
        if ¬ dayAvailability.isAvailable then .notAvailableDay
        else
          let windowStart := timeToMinutes dayAvailability.startTime
          let windowEnd0 := timeToMinutes dayAvailability.endTime
          let windowEnd :=
            if windowEnd0 ≤ windowStart then windowEnd0 + 24 * 60 else windowEnd0
          let slot0 :=
            match existingAppointments.getLast? with
            | none => windowStart
            | some lastBooked =>
              let lastStart := timeToMinutes lastBooked.time
              let lastDuration :=
                match findAppointmentType env lastBooked.appointmentType with
                | some t => t.duration
                | none => 30
              max windowStart (lastStart + lastDuration)
          let slot :=
            if date = env.today then max slot0 (roundUp5 (env.nowMinutes + 15))
            else slot0
          if windowEnd < slot + appointmentType.duration then .scheduleFull
          else .available (minutesToTime slot) (existingAppointments.length + 1)
  | _, _ => .notFoundDoctorOrType

/-! ### Wallet routes (src/server/routes/wallet.js, src/server/routes/users.js) -/

/-- `walletService.getOrCreateWallet`: create a zero-balance wallet when the
user has none. -/
def getOrCreateWallet (userId : UserId) (s : ClinicState) : ClinicState :=
  match findWallet s userId with
  | some _ => s
  | none => { s with wallets := s.wallets ++ [{ user := userId, balance := 0 }] }

/-- `POST /api/wallet/deposit` (wallet.js lines 41–87): positive-amount
guard, then one credit through the wallet service and a notification. -/
def depositRoute (userId : UserId) (amount : Money) (notifOk : Bool)
    (s : ClinicState) : Nat × ClinicState :=
  if amount ≤ 0 then (400, s)
  else
    match createTransactionAndUpdateWallet
        { userId := userId
          amount := amount
          direction := .credit
          transactionType := "Deposit"
          description := "User deposit via portal."
          referenceId := "DEPOSIT_" ++ toString s.clock } s with
    | .error _ => (500, s)
    | .ok s' => (200, createNotification notifOk userId s')

/-- `POST /api/wallet/redeem-code` (wallet.js lines 92–151): code lookup and
`isUsed` guard, credit through the wallet service, then the code is marked
used and a notification is created. -/
def redeemCodeRoute (userId : UserId) (codeId : Nat) (notifOk : Bool)
    (s : ClinicState) : Nat × ClinicState :=
  match s.redeemCodes.find? (fun c => c.id = codeId) with
  | none => (404, s)
  | some code =>
    if code.isUsed then (400, s)
    else
      match createTransactionAndUpdateWallet
          { userId := userId
            amount := code.amount
            direction := .credit
            transactionType := "Deposit"
            description := "Redeemed code"
            referenceId := toString code.id } s with
      | .error _ => (500, s)
      | .ok s' =>
        let s' := { s' with redeemCodes := s'.redeemCodes.map (fun c =>
          if c.id = codeId then { c with isUsed := true } else c) }
        (200, createNotification notifOk userId s')

/-- `POST /api/users/:id/add-funds` (users.js lines 1030–1080): admin credit
to another user's wallet; requires the wallet to exist. -/
def addFundsRoute (targetId : UserId) (amount : Money) (notifOk : Bool)
    (s : ClinicState) : Nat × ClinicState :=
  if amount ≤ 0 then (400, s)
  else
    match findWallet s targetId with
    | none => (404, s)
    | some _ =>
      match createTransactionAndUpdateWallet
          { userId := targetId
            amount := amount
            direction := .credit
            transactionType := "Deposit"
            description := "Admin deposit."
            referenceId := "ADMIN_DEPOSIT_" ++ toString s.clock } s with
      | .error _ => (500, s)
      | .ok s' => (200, createNotification notifOk targetId s')

/-! ### The operation alphabet interleaved by the ledger-consistency claim -/

/-- One completed API operation, as the ledger-consistency invariant (spec §8)
quantifies over them: deposits, redeem-code credits, admin add-funds, booking
(with its debit and optional cash deposit), patient/admin cancellation with
its refund, doctor-cancellation resolution with its refund, wallet creation,
and the queue/reminder operations that never touch the ledger. -/
inductive Op where
  | deposit (userId : UserId) (amount : Money) (notifOk : Bool)
  | redeemCode (userId : UserId) (codeId : Nat) (notifOk : Bool)
  | addFunds (targetId : UserId) (amount : Money) (notifOk : Bool)
  | createWallet (userId : UserId)
  | book (req : BookReq)
  | updateStatus (callerId : UserId) (callerRole : String) (callerHospitals : List Nat)
      (apptId : Nat) (newStatus : ApptStatus) (notifOk : Bool)
  | resolve (callerId : UserId) (apptId : Nat) (action : String)
      (newDoctorId : Option UserId) (newSlot : Option (Option String × Option String))
      (notifOk : Bool)
  | joinQ (userId doctorId : UserId) (hospitalId : Nat)
  | leaveQ (userId : UserId)
  | checkIn (appointmentId : Nat)
  | callNext (doctorId : UserId) (notifOk : Bool)

/-- Apply one operation: the store that remains after the route has answered
(on any error the atomic unit of work leaves the store untouched). -/
def applyOp (env : Env) (op : Op) (s : ClinicState) : ClinicState :=
  match op with
  | .deposit u amt ok => (depositRoute u amt ok s).2
  | .redeemCode u c ok => (redeemCodeRoute u c ok s).2
  | .addFunds u amt ok => (addFundsRoute u amt ok s).2
  | .createWallet u => getOrCreateWallet u s
  | .book req => (bookAppointment env req s).state
  | .updateStatus cid role hosp aid st ok =>
    (updateAppointmentStatus env cid role hosp aid st ok s).state
  | .resolve cid aid action nd ns ok =>
    (resolveCancellation cid aid action nd ns ok s).2
  | .joinQ u d h =>
    match joinQueue env u d h s with
    | .ok s' => s'
    | .error _ => s
  | .leaveQ u => leaveQueue u s
  | .checkIn aid =>
    match checkInAppointment env aid s with
    | .ok s' => s'
    | .error _ => s
  | .callNext d ok => callNextPatient env d ok s

def applyOps (env : Env) (ops : List Op) (s : ClinicState) : ClinicState :=
  ops.foldl (fun st op => applyOp env op st) s

/-- Signed amount of a ledger entry: credits positive, debits negative. -/
def signedAmount (t : Transaction) : Money :=
  if t.direction = .credit then t.amount else -t.amount

/-- Sum of the signed amounts of the transactions referencing a wallet. -/
def txSum (l : List Transaction) (u : UserId) : Money :=
  ((l.filter (fun t => t.wallet = u)).map signedAmount).sum

/-- Ledger consistency (spec §3/§8): every wallet's balance equals the sum of
the signed amounts of the transactions referencing it. -/
def ledgerConsistent (s : ClinicState) : Prop :=
  ∀ w ∈ s.wallets, w.balance = txSum s.transactions w.user

instance : DecidablePred ledgerConsistent := fun s =>
  inferInstanceAs (Decidable (∀ w ∈ s.wallets, w.balance = txSum s.transactions w.user))

/-! ### Concrete fixtures used by witnesses and counterexamples -/

def sampleDoctor : UserRec := { id := 10, role := "doctor", nameEn := "Xavier", hospitals := [100] }

def sampleDoctor2 : UserRec := { id := 20, role := "doctor", nameEn := "Zed", hospitals := [100] }

def samplePatient : UserRec := { id := 1, role := "patient", nameEn := "Alice" }

def samplePatient2 : UserRec := { id := 2, role := "patient", nameEn := "Bob" }

def sampleHospital : HospitalRec := { id := 100, refundPolicyPercentage := 80 }

def sampleService : AppointmentTypeRec :=
  { id := 200, nameEn := "Checkup", cost := 50, duration := 30 }

def sampleService15 : AppointmentTypeRec :=
  { id := 201, nameEn := "Follow-up", cost := 25, duration := 15 }

def sampleEnv : Env :=
  { users := [sampleDoctor, sampleDoctor2, samplePatient, samplePatient2]
    hospitals := [sampleHospital]
    appointmentTypes := [sampleService, sampleService15]
    today := "2024-06-10"
    nowMinutes := 600 }

def emptyState : ClinicState :=
  { appointments := [], queueItems := [], wallets := [], transactions := []
    redeemCodes := [], notifications := [], nextApptId := 0, nextQueueId := 0, clock := 0 }

/-- Scenario 1 of the spec: patient 1 with balance 100 books the cost-50 service. -/
def stateScenario1 : ClinicState := { emptyState with wallets := [{ user := 1, balance := 100 }] }

def reqScenario1 : BookReq :=
  { callerId := 1, callerRole := "patient", date := "2024-06-12", time := "10:00 AM"
    doctorId := some 10, hospitalId := some 100, appointmentTypeId := some 200 }

/-- A staff cash-payment booking for patient 1 whose wallet is empty. -/
def stateCash : ClinicState := { emptyState with wallets := [{ user := 1, balance := 0 }] }

def reqCash : BookReq :=
  { callerId := 9, callerRole := "hospital staff", date := "2024-06-12", time := "10:00 AM"
    doctorId := some 10, hospitalId := some 100, appointmentTypeId := some 200
    patientId := some 1, cashPayment := true }

/-- A state already holding an `Upcoming` appointment of patient 1 with
doctor 10 at 2024-06-12 10:00 AM (as booking Scenario 1 leaves it). -/
def apptBooked : Appointment :=
  { id := 0, user := 1, doctor := 10, hospital := 100, appointmentType := 200
    date := "2024-06-12", time := "10:00 AM", cost := 50, status := .Upcoming
    queueNumber := some "X001" }

def stateBooked : ClinicState :=
  { emptyState with
      appointments := [apptBooked]
      wallets := [{ user := 1, balance := 50 }, { user := 2, balance := 100 }]
      nextApptId := 1 }

/-- Patient 2 requests the very slot of `apptBooked` (different patient). -/
def reqSameSlot : BookReq :=
  { callerId := 2, callerRole := "patient", date := "2024-06-12", time := "10:00 AM"
    doctorId := some 10, hospitalId := some 100, appointmentTypeId := some 200, force := true }

/-- Like `stateBooked` but the blocking appointment was cancelled. -/
def stateCancelledSlot : ClinicState :=
  { stateBooked with appointments := [{ apptBooked with status := .Cancelled }] }

/-- A `Completed` appointment of patient 1 (C4: the route still lets the
patient cancel it). -/
def stateCompleted : ClinicState :=
  { emptyState with
      appointments := [{ apptBooked with status := .Completed }]
      wallets := [{ user := 1, balance := 100 }]
      nextApptId := 1 }

/-- A `DoctorCancelled`/`Pending` appointment of patient 1 (C5). -/
def stateDoctorCancelled : ClinicState :=
  { emptyState with
      appointments := [{ apptBooked with status := .DoctorCancelled }]
      wallets := [{ user := 1, balance := 100 }]
      nextApptId := 1 }

/-- Two `Upcoming` appointments of patient 1 today with two different
doctors (C7 check-in fixtures). -/
def stateTwoAppts : ClinicState :=
  { emptyState with
      appointments :=
        [ { apptBooked with date := "2024-06-10" }
        , { apptBooked with
              id := 1
              doctor := 20
              date := "2024-06-10"
              time := "11:00 AM"
              queueNumber := some "Z001" } ]
      wallets := [{ user := 1, balance := 100 }]
      nextApptId := 2 }

def stateAfterCheckIn1 : ClinicState :=
  (checkInAppointment sampleEnv 0 stateTwoAppts).toOption.getD stateTwoAppts

def stateAfterCheckIn2 : ClinicState :=
  (checkInAppointment sampleEnv 1 stateAfterCheckIn1).toOption.getD stateAfterCheckIn1

/-- Doctor 10 working Wednesdays 09:00–15:00 at hospital 100. -/
def doctorWithWindow : UserRec :=
  { sampleDoctor with availability :=
      [{ dayOfWeek := "Wednesday", isAvailable := true
         startTime := "09:00", endTime := "15:00", hospital := some 100 }] }

def envAvail : Env := { sampleEnv with users := [doctorWithWindow, samplePatient, samplePatient2] }

/-- Two `Upcoming` appointments whose `time` strings sort lexicographically
in the opposite of chronological order: `"10:00 AM" < "9:00 AM"`. -/
def stateTwoTimes : ClinicState :=
  { emptyState with
      appointments :=
        [ { apptBooked with id := 0, time := "10:00 AM" }
        , { apptBooked with id := 1, user := 2, time := "9:00 AM" } ]
      nextApptId := 2 }

/-- Doctor 10 with the midnight-wrapping window 20:00–00:00 (Wednesdays). -/
def doctorNightWindow : UserRec :=
  { sampleDoctor with availability :=
      [{ dayOfWeek := "Wednesday", isAvailable := true
         startTime := "20:00", endTime := "00:00", hospital := some 100 }] }

def envNight : Env := { sampleEnv with users := [doctorNightWindow, samplePatient] }

def stateNight : ClinicState :=
  { emptyState with
      appointments :=
        [{ apptBooked with appointmentType := 201, time := "11:30 PM", cost := 25 }]
      nextApptId := 1 }

/-- A serving entry, two waiting entries and a matching same-day appointment
for doctor 10 (C8 fixture). -/
def stateQueueBusy : ClinicState :=
  { emptyState with
      appointments := [{ apptBooked with date := "2024-06-10" }]
      queueItems :=
        [ { id := 0, user := some 1, doctor := 10, hospital := 100
            queueNumber := "X001", status := .Serving, checkInTime := 0 }
        , { id := 1, user := some 2, doctor := 10, hospital := 100
            queueNumber := "X002", status := .Waiting, checkInTime := 1 }
        , { id := 2, user := some 3, doctor := 10, hospital := 100
            queueNumber := "X003", status := .Waiting, checkInTime := 2 } ]
      wallets := [{ user := 1, balance := 50 }]
      nextApptId := 1
      nextQueueId := 3
      clock := 3 }

/-- One reminder-eligible `Upcoming` appointment tomorrow at 10:00 AM (C9). -/
def stateReminder : List Appointment :=
  [{ apptBooked with date := "2024-06-11" }]

/-- The appointments of one doctor at one exact `(date, time)` slot, of any
status — the scope of the storage-level unique index
(src/server/models/appointment.js line 83). -/
def slotAppts (s : ClinicState) (d : UserId) (dt tm : String) : List Appointment :=
  s.appointments.filter (fun a => a.doctor = d ∧ a.date = dt ∧ a.time = tm)

/-- The `Upcoming` appointments of one doctor at one exact slot — the scope
of the spec's no-double-booking invariant. -/
def upcomingAt (s : ClinicState) (d : UserId) (dt tm : String) : List Appointment :=
  s.appointments.filter (fun a =>
    a.doctor = d ∧ a.date = dt ∧ a.time = tm ∧ a.status = ApptStatus.Upcoming)

/-- Every ledger row references an existing wallet — transactions are only
written by the wallet service, which looks the wallet up first. -/
def walletBacked (s : ClinicState) : Prop :=
  ∀ t ∈ s.transactions, ∃ w ∈ s.wallets, w.user = t.wallet

/-! ## Infrastructure lemmas -/

theorem createNotification_wallets (ok : Bool) (u : UserId) (s : ClinicState) :
    (createNotification ok u s).wallets = s.wallets := by
  unfold createNotification; split <;> rfl

theorem createNotification_transactions (ok : Bool) (u : UserId) (s : ClinicState) :
    (createNotification ok u s).transactions = s.transactions := by
  unfold createNotification; split <;> rfl

theorem createNotification_appointments (ok : Bool) (u : UserId) (s : ClinicState) :
    (createNotification ok u s).appointments = s.appointments := by
  unfold createNotification; split <;> rfl

theorem createNotification_queueItems (ok : Bool) (u : UserId) (s : ClinicState) :
    (createNotification ok u s).queueItems = s.queueItems := by
  unfold createNotification; split <;> rfl

theorem updateAppt_wallets (s : ClinicState) (aid : Nat) (f : Appointment → Appointment) :
    (updateAppt s aid f).wallets = s.wallets := rfl

theorem updateAppt_transactions (s : ClinicState) (aid : Nat) (f : Appointment → Appointment) :
    (updateAppt s aid f).transactions = s.transactions := rfl

theorem updateQueueItem_wallets (s : ClinicState) (qid : Nat) (f : QueueItem → QueueItem) :
    (updateQueueItem s qid f).wallets = s.wallets := rfl

theorem updateQueueItem_transactions (s : ClinicState) (qid : Nat) (f : QueueItem → QueueItem) :
    (updateQueueItem s qid f).transactions = s.transactions := rfl

/-- `find?` over a user-preserving map of the wallet list. -/
theorem find?_map_user (g : Wallet → Wallet) (hg : ∀ w, (g w).user = w.user)
    (l : List Wallet) (u : UserId) :
    (l.map g).find? (fun w => w.user = u) = (l.find? (fun w => w.user = u)).map g := by
  induction l with
  | nil => rfl
  | cons w ws ih =>
    simp only [List.map, List.find?]
    rw [show (decide ((g w).user = u)) = (decide (w.user = u)) by rw [hg w]]
    by_cases h : w.user = u
    · simp [h]
    · simp [h, ih]

theorem txSum_append (l : List Transaction) (tx : Transaction) (u : UserId) :
    txSum (l ++ [tx]) u = txSum l u + (if tx.wallet = u then signedAmount tx else 0) := by
  unfold txSum
  rw [List.filter_append]
  by_cases h : tx.wallet = u
  · simp [h]
  · simp [h]

/-- What a successful `createTransactionAndUpdateWallet` does to the store. -/
theorem createTx_ok {txd : TransactionData} {s s' : ClinicState}
    (h : createTransactionAndUpdateWallet txd s = .ok s') :
    s'.appointments = s.appointments ∧ s'.queueItems = s.queueItems ∧
    s'.notifications = s.notifications ∧ s'.redeemCodes = s.redeemCodes ∧
    s'.nextApptId = s.nextApptId ∧ s'.nextQueueId = s.nextQueueId ∧ s'.clock = s.clock ∧
    (∃ tx : Transaction, s'.transactions = s.transactions ++ [tx] ∧
      tx.wallet = txd.userId ∧ tx.user = txd.userId ∧ tx.amount = txd.amount ∧
      tx.direction = txd.direction ∧ tx.transactionType = txd.transactionType ∧
      tx.referenceId = txd.referenceId) ∧
    (∀ u, walletBalance s' u =
      if u = txd.userId then
        walletBalance s u + (if txd.direction = .credit then txd.amount else -txd.amount)
      else walletBalance s u) := by
  unfold createTransactionAndUpdateWallet at h
  cases hw : findWallet s txd.userId with
  | none => rw [hw] at h; exact absurd h (by simp)
  | some wallet =>
    rw [hw] at h
    simp only [] at h
    have hw2 : List.find? (fun w : Wallet => decide (w.user = txd.userId)) s.wallets =
        some wallet := hw
    have hwdec := List.find?_some hw2
    have hwu : wallet.user = txd.userId := by simpa using hwdec
    by_cases hdeb : txd.direction = TxDirection.debit ∧ wallet.balance < txd.amount
    · rw [if_pos hdeb] at h; exact absurd h (by simp)
    · rw [if_neg hdeb] at h
      have hs' := (Except.ok.injEq _ _).mp h.symm
      subst hs'
      refine ⟨rfl, rfl, rfl, rfl, rfl, rfl, rfl, ⟨_, rfl, hwu, rfl, rfl, rfl, rfl, rfl⟩, ?_⟩
      intro u
      unfold walletBalance findWallet
      simp only []
      rw [find?_map_user _ (fun w => by by_cases hx : w.user = txd.userId <;> simp [hx])]
      by_cases hu : u = txd.userId
      · rw [hu]
        have hfw : List.find? (fun w => decide (w.user = txd.userId)) s.wallets = some wallet := hw
        rw [hfw]
        simp [hwu]
      · rw [if_neg hu]
        cases hfind : List.find? (fun w => decide (w.user = u)) s.wallets with
        | none => simp
        | some w2 =>
          have h1 := List.find?_some hfind
          have hw2 : w2.user = u := by simpa using h1
          have hne : ¬ (w2.user = txd.userId) := fun hx => hu (hw2.symm.trans hx)
          simp [hne]

/-- A successful service call preserves ledger consistency. -/
theorem ledger_createTx {txd : TransactionData} {s s' : ClinicState}
    (h : createTransactionAndUpdateWallet txd s = .ok s')
    (hInv : ledgerConsistent s) : ledgerConsistent s' := by
  unfold createTransactionAndUpdateWallet at h
  cases hw : findWallet s txd.userId with
  | none => rw [hw] at h; exact absurd h (by simp)
  | some wallet =>
    rw [hw] at h
    simp only [] at h
    have hw2 : List.find? (fun w : Wallet => decide (w.user = txd.userId)) s.wallets =
        some wallet := hw
    have hwdec := List.find?_some hw2
    have hwu : wallet.user = txd.userId := by simpa using hwdec
    by_cases hdeb : txd.direction = TxDirection.debit ∧ wallet.balance < txd.amount
    · rw [if_pos hdeb] at h; exact absurd h (by simp)
    · rw [if_neg hdeb] at h
      have hs' := (Except.ok.injEq _ _).mp h.symm
      subst hs'
      intro w' hw'
      simp only [List.mem_map] at hw'
      obtain ⟨w, hwmem, hweq⟩ := hw'
      subst hweq
      rw [txSum_append]
      have hbal := hInv w hwmem
      by_cases hwu2 : w.user = txd.userId
      · simp [hwu2, hwu, signedAmount, hbal]
      · have hne : ¬ (wallet.user = w.user) := fun hx => hwu2 (hx ▸ hwu)
        simp [hwu2, hne, hbal]

/-- Ledger consistency only depends on the wallet and transaction columns. -/
theorem ledger_eq_of {s s' : ClinicState} (h1 : s'.wallets = s.wallets)
    (h2 : s'.transactions = s.transactions) (hInv : ledgerConsistent s) :
    ledgerConsistent s' := by
  unfold ledgerConsistent
  rw [h1, h2]
  exact hInv

/-- Generic: `find?` commutes with a map that does not disturb the predicate. -/
theorem find?_map_pred {α : Type} (g : α → α) (p : α → Bool)
    (hg : ∀ a, p (g a) = p a) (l : List α) :
    (l.map g).find? p = (l.find? p).map g := by
  induction l with
  | nil => rfl
  | cons a as ih =>
    simp only [List.map, List.find?]
    rw [hg a]
    by_cases h : p a = true
    · simp [h]
    · simp only [Bool.not_eq_true] at h
      simp [h, ih]

/-- Updating the appointment found at `aid` with an id-preserving function is
observed by `findAppt`. -/
theorem findAppt_updateAppt (s : ClinicState) (aid : Nat) (f : Appointment → Appointment)
    (hf : ∀ a, a.id = aid → (f a).id = aid) :
    findAppt (updateAppt s aid f) aid =
      (findAppt s aid).map (fun a => if a.id = aid then f a else a) := by
  unfold findAppt updateAppt
  exact find?_map_pred _ _ (fun a => by
    by_cases h : a.id = aid
    · simp [h, hf a h]
    · simp [h]) _

/-- A credit through the wallet service succeeds whenever the wallet exists. -/
theorem createTx_credit_ok (txd : TransactionData) (s : ClinicState)
    (hW : (findWallet s txd.userId).isSome) (hc : txd.direction = .credit) :
    ∃ s', createTransactionAndUpdateWallet txd s = .ok s' := by
  unfold createTransactionAndUpdateWallet
  cases hw : findWallet s txd.userId with
  | none => rw [hw] at hW; exact absurd hW (by simp)
  | some wallet =>
    simp only []
    rw [if_neg (by rw [hc]; rintro ⟨h1, -⟩; exact absurd h1 (by decide))]
    exact ⟨_, rfl⟩

/-! ## C7 — single active queue membership -/

/-- C7 counterexample: patient 1 is already active in doctor 10's queue
(after checking in appointment 0), yet checking in appointment 1 — same
patient, doctor 20 — succeeds and leaves the patient with two active queue
entries.  This refutes both "checkIn fails with AlreadyQueued whenever the
patient already has an active entry" and the across-all-doctors invariant. -/
theorem C7_counterexample :
    hasActiveQueueEntry stateAfterCheckIn1 1 = true ∧
    (checkInAppointment sampleEnv 1 stateAfterCheckIn1).isOk = true ∧
    (stateAfterCheckIn2.queueItems.filter
      (fun q => q.user = some 1 && qActive q.status)).length = 2 := by
  decide

/-- C7 (amended): `joinQueue` refuses whenever the patient has an active
(`Waiting|Serving|Held`) entry with **any** doctor, but `checkInAppointment`
only refuses when the active entry is with the appointment's own doctor; so
at most one active entry per (patient, doctor) pair is enforced at check-in,
not one per patient across all doctors. -/
theorem C7_queue_guards (env : Env) (s : ClinicState) (u d : UserId) (h : Nat)
    (aid : Nat) (appt : Appointment)
    (hFind : findAppt s aid = some appt) :
    (hasActiveQueueEntry s u = true →
      joinQueue env u d h s = .error .alreadyInQueue) ∧
    ((s.queueItems.any (fun q =>
        q.doctor = appt.doctor ∧ q.user = some appt.user ∧ qActive q.status)) = true →
      checkInAppointment env aid s = .error .alreadyInQueue) := by
  constructor
  · intro hActive
    unfold joinQueue
    rw [hActive]
    rfl
  · intro hActive
    unfold checkInAppointment
    rw [hFind]
    simp only [hActive]
    rfl

/-- C7 witness: the amended guards at a concrete state — patient 1 waiting
with doctor 10; a join attempt and a check-in of the doctor-10 appointment
are both refused. -/
theorem C7_witness :
    findAppt stateAfterCheckIn1 0 = some { apptBooked with date := "2024-06-10" } ∧
    (hasActiveQueueEntry stateAfterCheckIn1 1 = true →
      joinQueue sampleEnv 1 10 100 stateAfterCheckIn1 = .error .alreadyInQueue) :=
  ⟨by decide,
   (C7_queue_guards sampleEnv stateAfterCheckIn1 1 10 100 0
      { apptBooked with date := "2024-06-10" } (by decide)).1⟩

instance {e a : Type} [DecidableEq e] [DecidableEq a] : DecidableEq (Except e a) := fun x y =>
  match x, y with
  | .error e1, .error e2 =>
    if h : e1 = e2 then isTrue (by rw [h]) else isFalse (fun hc => by cases hc; exact h rfl)
  | .ok v1, .ok v2 =>
    if h : v1 = v2 then isTrue (by rw [h]) else isFalse (fun hc => by cases hc; exact h rfl)
  | .error _, .ok _ => isFalse (fun hc => by cases hc)
  | .ok _, .error _ => isFalse (fun hc => by cases hc)

/-! ## C5 — resolution of a doctor-cancelled appointment -/

/-- C5 counterexample: after a first successful `Refund` resolution, a second
resolution attempt on the same appointment does fail — but with
`notDoctorCancelled` ('This appointment is not cancelled by doctor'), not
with `AlreadyResolved`: the first resolution moved `status` to `Cancelled`,
so the `AlreadyResolved` guard is never reached. -/
theorem C5_counterexample :
    (resolveCancellation 1 0 "Refund" none none true stateDoctorCancelled).1 = 200 ∧
    resolveCancellationTx 1 0 "Refund" none none true
      (resolveCancellation 1 0 "Refund" none none true stateDoctorCancelled).2 =
      .error .notDoctorCancelled ∧
    ResolveErr.notDoctorCancelled ≠ ResolveErr.alreadyResolved := by
  decide

/-- C5 (amended): a resolution action is accepted only while the appointment
is `DoctorCancelled` with sub-state `Pending`; `Refund` then credits 100 % of
the stored cost (the hospital refund policy is never consulted), sets status
`Cancelled` and sub-state `Refunded`; and a second resolution attempt fails —
rejected by the `DoctorCancelled` status guard (error
'This appointment is not cancelled by doctor') rather than `AlreadyResolved`. -/
theorem C5_resolution (s : ClinicState) (apptId : Nat) (appt : Appointment)
    (caller : UserId) (notifOk : Bool)
    (hFind : findAppt s apptId = some appt) (hUser : appt.user = caller) :
    (∀ action nd ns, appt.status ≠ ApptStatus.DoctorCancelled →
      resolveCancellation caller apptId action nd ns notifOk s = (400, s)) ∧
    (∀ action nd ns, appt.status = ApptStatus.DoctorCancelled →
      appt.cancellationResolution ≠ Resolution.Pending →
      resolveCancellation caller apptId action nd ns notifOk s = (400, s)) ∧
    (appt.status = ApptStatus.DoctorCancelled →
     appt.cancellationResolution = Resolution.Pending →
     (findWallet s appt.user).isSome →
     0 < appt.cost →
      ∃ s' tx, resolveCancellation caller apptId "Refund" none none notifOk s = (200, s') ∧
        s'.transactions = s.transactions ++ [tx] ∧
        tx.direction = TxDirection.credit ∧ tx.amount = appt.cost ∧
        tx.transactionType = "Refund" ∧ tx.referenceId = toString appt.id ∧
        walletBalance s' appt.user = walletBalance s appt.user + appt.cost ∧
        findAppt s' apptId =
          some { appt with status := .Cancelled, isRefunded := true, cancellationResolution := .Refunded } ∧
        (∀ action2 nd2 ns2,
          resolveCancellation caller apptId action2 nd2 ns2 notifOk s' = (400, s'))) := by
  subst hUser
  refine ⟨?_, ?_, ?_⟩
  · intro action nd ns hSt
    unfold resolveCancellation resolveCancellationTx
    rw [hFind]
    simp only []
    rw [if_neg (by simp), if_pos hSt]
  · intro action nd ns hSt hRes
    unfold resolveCancellation resolveCancellationTx
    rw [hFind]
    simp only []
    rw [if_neg (by simp), if_neg (fun hc => hc hSt), if_pos hRes]
  · intro hSt hRes hW hCost
    obtain ⟨s1, hs1⟩ := createTx_credit_ok
      { userId := appt.user
        amount := appt.cost
        direction := .credit
        transactionType := "Refund"
        description := "Full refund for doctor apology"
        referenceId := toString appt.id
        hospitalId := some appt.hospital } s hW rfl
    obtain ⟨hApp, hQ, hN, hR, hA, hB, hC, ⟨tx, hTx, hTxW, hTxU, hTxA, hTxD, hTxT, hTxR⟩, hBal⟩ :=
      createTx_ok hs1
    have hFind1 : findAppt s1 apptId = some appt := by
      unfold findAppt
      rw [hApp]
      exact hFind
    have hIdOf : appt.id = apptId := by
      have h1 := List.find?_some hFind
      simpa using h1
    have hFindPost : findAppt (createNotification notifOk appt.user
        (updateAppt s1 apptId (fun a =>
          { a with status := ApptStatus.Cancelled, isRefunded := true,
                   cancellationResolution := Resolution.Refunded }))) apptId =
        some { appt with status := .Cancelled, isRefunded := true, cancellationResolution := .Refunded } := by
      have h2 := findAppt_updateAppt s1 apptId (fun a =>
        { a with status := ApptStatus.Cancelled, isRefunded := true,
                 cancellationResolution := Resolution.Refunded }) (fun a ha => ha)
      have hstep : findAppt (createNotification notifOk appt.user
          (updateAppt s1 apptId (fun a =>
            { a with status := ApptStatus.Cancelled, isRefunded := true,
                     cancellationResolution := Resolution.Refunded }))) apptId =
          findAppt (updateAppt s1 apptId (fun a =>
            { a with status := ApptStatus.Cancelled, isRefunded := true,
                     cancellationResolution := Resolution.Refunded })) apptId := by
        unfold findAppt
        rw [createNotification_appointments]
      rw [hstep, h2, hFind1]
      simp [hIdOf]
    have hResolve : resolveCancellationTx appt.user apptId "Refund" none none notifOk s =
        .ok (createNotification notifOk appt.user
          (updateAppt s1 apptId (fun a =>
            { a with status := ApptStatus.Cancelled, isRefunded := true,
                     cancellationResolution := Resolution.Refunded }))) := by
      unfold resolveCancellationTx
      rw [hFind]
      simp only []
      rw [if_neg (by simp), if_neg (fun hc => hc hSt), if_neg (fun hc => hc hRes)]
      simp only [reduceIte]
      rw [if_pos hCost, hs1]
    refine ⟨_, tx, ?_, ?_, hTxD, hTxA, hTxT, hTxR, ?_, hFindPost, ?_⟩
    · unfold resolveCancellation
      rw [hResolve]
    · rw [createNotification_transactions, updateAppt_transactions, hTx]
    · have hwb : walletBalance (createNotification notifOk appt.user
          (updateAppt s1 apptId (fun a =>
            { a with status := ApptStatus.Cancelled, isRefunded := true,
                     cancellationResolution := Resolution.Refunded }))) appt.user =
          walletBalance s1 appt.user := by
        unfold walletBalance findWallet
        rw [createNotification_wallets, updateAppt_wallets]
      rw [hwb, hBal appt.user]
      simp
    · intro action2 nd2 ns2
      unfold resolveCancellation resolveCancellationTx
      rw [hFindPost]
      simp only []
      rw [if_neg (by simp), if_pos (by simp)]

/-- C5 witness: patient 1's appointment 0 in `stateCompleted` is not
`DoctorCancelled`, so the `Refund` resolution attempt is rejected with a 400
and the store is untouched. -/
theorem C5_witness :
    resolveCancellation 1 0 "Refund" none none true stateCompleted =
      (400, stateCompleted) :=
  (C5_resolution stateCompleted 0 { apptBooked with status := .Completed } 1 true
    (by decide) (by decide)).1 "Refund" none none (by decide)

/-! ## C4 — patient-initiated cancellation -/

/-- C4 counterexample: the route never checks that the appointment is still
`Upcoming`.  Patient 1 cancels their **Completed** appointment: the call
succeeds (200), the status flips to `Cancelled`, and a refund transaction is
even credited.  This refutes "allowed only while the appointment's status is
Upcoming". -/
theorem C4_counterexample :
    (findAppt stateCompleted 0).map (fun a => a.status) = some ApptStatus.Completed ∧
    (updateAppointmentStatus sampleEnv 1 "patient" [] 0 .Cancelled true
      stateCompleted).statusCode = 200 ∧
    (findAppt (updateAppointmentStatus sampleEnv 1 "patient" [] 0 .Cancelled true
      stateCompleted).state 0).map (fun a => a.status) = some ApptStatus.Cancelled ∧
    ((updateAppointmentStatus sampleEnv 1 "patient" [] 0 .Cancelled true
      stateCompleted).state.transactions.length = 1) := by
  norm_num [updateAppointmentStatus, updateAppointmentStatusTx, findAppt, findHospital,
    findWallet, walletBalance, createTransactionAndUpdateWallet, createNotification,
    updateAppt, staffRoles, stateCompleted, sampleEnv, sampleHospital, sampleDoctor,
    sampleDoctor2, samplePatient, samplePatient2, sampleService, sampleService15,
    apptBooked, emptyState, List.find?, updateErrStatus]

/-- C4 (amended): a patient may set their own appointment's status only to
`Cancelled` (anything else is rejected 403), but the route accepts the
cancellation **whatever the current status is**; cancellation credits
`cost × hospital.refundPolicyPercentage / 100` exactly once — guarded by
`isRefunded` and only when the amount is positive — and repeating the
cancellation creates no second refund transaction. -/
theorem C4_patient_cancel (env : Env) (s : ClinicState) (apptId : Nat)
    (appt : Appointment) (hosp : HospitalRec) (hosps : List Nat) (notifOk : Bool)
    (hFind : findAppt s apptId = some appt)
    (hHosp : findHospital env appt.hospital = some hosp) :
    (∀ st, st ≠ ApptStatus.Cancelled →
      updateAppointmentStatus env appt.user "patient" hosps apptId st notifOk s =
        { statusCode := 403, apptId := none, state := s }) ∧
    (appt.isRefunded = false → 0 < appt.cost * (hosp.refundPolicyPercentage / 100) →
     (findWallet s appt.user).isSome →
      ∃ s' tx,
        updateAppointmentStatus env appt.user "patient" hosps apptId .Cancelled notifOk s =
          { statusCode := 200, apptId := some apptId, state := s' } ∧
        s'.transactions = s.transactions ++ [tx] ∧
        tx.direction = TxDirection.credit ∧
        tx.amount = appt.cost * (hosp.refundPolicyPercentage / 100) ∧
        tx.transactionType = "Refund" ∧
        walletBalance s' appt.user =
          walletBalance s appt.user + appt.cost * (hosp.refundPolicyPercentage / 100) ∧
        findAppt s' apptId = some { appt with status := .Cancelled, isRefunded := true } ∧
        (∃ s2,
          updateAppointmentStatus env appt.user "patient" hosps apptId .Cancelled notifOk s' =
            { statusCode := 200, apptId := some apptId, state := s2 } ∧
          s2.transactions = s'.transactions)) ∧
    (appt.isRefunded = true →
      ∃ s',
        updateAppointmentStatus env appt.user "patient" hosps apptId .Cancelled notifOk s =
          { statusCode := 200, apptId := some apptId, state := s' } ∧
        s'.transactions = s.transactions ∧
        findAppt s' apptId = some { appt with status := .Cancelled }) := by
  have hIdOf : appt.id = apptId := by
    have h1 := List.find?_some hFind
    simpa using h1
  refine ⟨?_, ?_, ?_⟩
  · intro st hSt
    unfold updateAppointmentStatus updateAppointmentStatusTx
    rw [hFind]
    simp only []
    rw [hHosp]
    simp only []
    rw [if_neg (by simp), if_pos (by simp [hSt])]
    rfl
  · intro hNR hPos hW
    obtain ⟨s1, hs1⟩ := createTx_credit_ok
      { userId := appt.user
        amount := appt.cost * (hosp.refundPolicyPercentage / 100)
        direction := .credit
        transactionType := "Refund"
        description := "Refund for cancelled appointment"
        referenceId := toString appt.id
        hospitalId := some appt.hospital } s hW rfl
    obtain ⟨hApp, hQ, hN, hR, hA, hB, hC, ⟨tx, hTx, hTxW, hTxU, hTxA, hTxD, hTxT, hTxR⟩, hBal⟩ :=
      createTx_ok hs1
    have hFind1 : findAppt s1 apptId = some appt := by
      unfold findAppt
      rw [hApp]
      exact hFind
    have hRun : updateAppointmentStatusTx env appt.user "patient" hosps apptId
        ApptStatus.Cancelled notifOk s =
        .ok (createNotification notifOk appt.user (updateAppt s1 apptId
          (fun _ => { appt with status := .Cancelled, isRefunded := true }))) := by
      unfold updateAppointmentStatusTx
      rw [hFind]
      simp only []
      rw [hHosp]
      simp [hNR, hPos, hs1]
    have hFindPost : findAppt (createNotification notifOk appt.user (updateAppt s1 apptId
        (fun _ => { appt with status := .Cancelled, isRefunded := true }))) apptId =
        some { appt with status := .Cancelled, isRefunded := true } := by
      have h2 := findAppt_updateAppt s1 apptId
        (fun _ => { appt with status := .Cancelled, isRefunded := true })
        (fun a _ => hIdOf)
      have hstep : findAppt (createNotification notifOk appt.user (updateAppt s1 apptId
          (fun _ => { appt with status := .Cancelled, isRefunded := true }))) apptId =
          findAppt (updateAppt s1 apptId
            (fun _ => { appt with status := .Cancelled, isRefunded := true })) apptId := by
        unfold findAppt
        rw [createNotification_appointments]
      rw [hstep, h2, hFind1]
      simp [hIdOf]
    refine ⟨_, tx, ?_, ?_, hTxD, hTxA, hTxT, ?_, hFindPost, ?_⟩
    · unfold updateAppointmentStatus
      rw [hRun]
    · rw [createNotification_transactions, updateAppt_transactions, hTx]
    · have hwb : walletBalance (createNotification notifOk appt.user (updateAppt s1 apptId
          (fun _ => { appt with status := .Cancelled, isRefunded := true }))) appt.user =
          walletBalance s1 appt.user := by
        unfold walletBalance findWallet
        rw [createNotification_wallets, updateAppt_wallets]
      rw [hwb, hBal appt.user]
      simp
    · -- the second cancellation: `isRefunded` is now set, so no new transaction
      have hRun2 : updateAppointmentStatusTx env appt.user "patient" hosps apptId
          ApptStatus.Cancelled notifOk (createNotification notifOk appt.user (updateAppt s1 apptId
            (fun _ => { appt with status := .Cancelled, isRefunded := true }))) =
          .ok (createNotification notifOk appt.user
            (updateAppt (createNotification notifOk appt.user (updateAppt s1 apptId
              (fun _ => { appt with status := .Cancelled, isRefunded := true }))) apptId
              (fun _ => { appt with status := .Cancelled, isRefunded := true }))) := by
        unfold updateAppointmentStatusTx
        rw [hFindPost]
        simp only []
        rw [hHosp]
        simp
      refine ⟨createNotification notifOk appt.user
          (updateAppt (createNotification notifOk appt.user (updateAppt s1 apptId
            (fun _ => { appt with status := .Cancelled, isRefunded := true }))) apptId
            (fun _ => { appt with status := .Cancelled, isRefunded := true })), ?_, ?_⟩
      · unfold updateAppointmentStatus
        rw [hRun2]
      · rw [createNotification_transactions, updateAppt_transactions]
  · intro hRef
    have hRun : updateAppointmentStatusTx env appt.user "patient" hosps apptId
        ApptStatus.Cancelled notifOk s =
        .ok (createNotification notifOk appt.user (updateAppt s apptId
          (fun _ => { appt with status := .Cancelled }))) := by
      unfold updateAppointmentStatusTx
      rw [hFind]
      simp only []
      rw [hHosp]
      simp [hRef]
    have hFindPost : findAppt (createNotification notifOk appt.user (updateAppt s apptId
        (fun _ => { appt with status := .Cancelled }))) apptId =
        some { appt with status := .Cancelled } := by
      have h2 := findAppt_updateAppt s apptId
        (fun _ => { appt with status := .Cancelled }) (fun a _ => hIdOf)
      have hstep : findAppt (createNotification notifOk appt.user (updateAppt s apptId
          (fun _ => { appt with status := .Cancelled }))) apptId =
          findAppt (updateAppt s apptId
            (fun _ => { appt with status := .Cancelled })) apptId := by
        unfold findAppt
        rw [createNotification_appointments]
      rw [hstep, h2, hFind]
      simp [hIdOf]
    refine ⟨_, ?_, ?_, hFindPost⟩
    · unfold updateAppointmentStatus
      rw [hRun]
    · rw [createNotification_transactions, updateAppt_transactions]

/-- C4 witness: Scenario 2 — cancelling the Upcoming appointment at a
hospital with `refundPolicyPercentage = 80` and cost 50 yields the 200
response with a refund transaction of 40; here we record the instantiated
success clause. -/
theorem C4_witness :
    ∃ s' tx,
      updateAppointmentStatus sampleEnv 1 "patient" [] 0 .Cancelled true stateBooked =
        { statusCode := 200, apptId := some 0, state := s' } ∧
      s'.transactions = stateBooked.transactions ++ [tx] ∧
      tx.direction = TxDirection.credit ∧
      tx.amount = apptBooked.cost * (sampleHospital.refundPolicyPercentage / 100) ∧
      tx.transactionType = "Refund" ∧
      walletBalance s' 1 = walletBalance stateBooked 1 +
        apptBooked.cost * (sampleHospital.refundPolicyPercentage / 100) ∧
      findAppt s' 0 = some { apptBooked with status := .Cancelled, isRefunded := true } ∧
      (∃ s2, updateAppointmentStatus sampleEnv 1 "patient" [] 0 .Cancelled true s' =
        { statusCode := 200, apptId := some 0, state := s2 } ∧
        s2.transactions = s'.transactions) :=
  (C4_patient_cancel sampleEnv stateBooked 0 apptBooked sampleHospital [] true
    rfl rfl).2.1 rfl (by norm_num [apptBooked, sampleHospital]) rfl

/-! ## C6 — slot availability computation -/

/-- C6 counterexample: with existing `Upcoming` appointments at `10:00 AM`
and `9:00 AM` (window 09:00–15:00, 30-minute service), the route sorts the
time **strings**, whose lexicographic last element is `"9:00 AM"`, and offers
`9:30 AM`; the claim's chronological reading would offer `10:30 AM`. -/
theorem C6_counterexample :
    getDoctorAvailability envAvail 10 "2024-06-12" "Wednesday" 200 100 stateTwoTimes =
      .available "9:30 AM" 3 ∧
    getDoctorAvailabilityClaimC6 envAvail 10 "2024-06-12" "Wednesday" 200 100 stateTwoTimes =
      .available "10:30 AM" 3 ∧
    getDoctorAvailability envAvail 10 "2024-06-12" "Wednesday" 200 100 stateTwoTimes ≠
      getDoctorAvailabilityClaimC6 envAvail 10 "2024-06-12" "Wednesday" 200 100 stateTwoTimes := by
  decide

/-- C6 (amended): for a doctor with a working window on the requested day at
the requested hospital and no unavailability episode, the returned slot is
`max(window.start, last.start + last.duration)` where "last" is the **final
element of the existing Upcoming appointments sorted lexicographically by
their raw time string** (the database string sort, not chronological order);
when the requested date is the current date and that slot is earlier than
`now + 15` minutes, the slot becomes `now + 15` rounded up to the nearest 5
minutes; `ScheduleFull` is returned exactly when slot + service duration
exceeds the window end, where an end time ≤ the start time counts as
`end + 24h`. -/
theorem C6_availability (env : Env) (doctorId : UserId) (date dayOfWeek : String)
    (tid hid : Nat) (s : ClinicState) (doctor : UserRec) (ty : AppointmentTypeRec)
    (dayAvail : AvailabilityEntry)
    (hD : findUser env doctorId = some doctor)
    (hT : findAppointmentType env tid = some ty)
    (hU : inUnavailabilityEpisode doctor.unavailabilityEpisodes date = false)
    (hA : doctor.availability.find? (fun d =>
      d.hospital.isSome && d.hospital = some hid && d.dayOfWeek = dayOfWeek) = some dayAvail)
    (hAv : dayAvail.isAvailable = true) :
    (let existing := sortByTimeString (s.appointments.filter (fun a =>
       a.doctor = doctorId ∧ a.hospital = hid ∧ a.date = date ∧
       a.status = ApptStatus.Upcoming));
     let startM := timeToMinutes dayAvail.startTime;
     let endM0 := timeToMinutes dayAvail.endTime;
     let endM := if endM0 ≤ startM then endM0 + 24 * 60 else endM0;
     let slot0 :=
       match existing.getLast? with
       | none => startM
       | some last =>
         max startM (timeToMinutes last.time +
           (match findAppointmentType env last.appointmentType with
            | some t => t.duration
            | none => 30));
     let slot := if date = env.today ∧ slot0 < env.nowMinutes + 15 then
                   roundUp5 (env.nowMinutes + 15)
                 else slot0;
     getDoctorAvailability env doctorId date dayOfWeek tid hid s =
       (if endM < slot + ty.duration then AvailResult.scheduleFull
        else AvailResult.available (minutesToTime slot) (existing.length + 1))) := by
  unfold getDoctorAvailability
  rw [hD, hT]
  simp only []
  rw [if_neg (by rw [hU]; exact Bool.false_ne_true)]
  rw [hA]
  simp only []
  rw [if_neg (by rw [hAv]; exact fun hc => hc rfl)]

/-- C6 witness: the spec's midnight-wrap boundary — window 20:00–00:00, a
15-minute service and an existing 11:30 PM booking still admit the 11:45 PM
slot because the end time is treated as 24:00. -/
theorem C6_witness :
    getDoctorAvailability envNight 10 "2024-06-12" "Wednesday" 201 100 stateNight =
      (if (24 * 60 : Nat) < 23 * 60 + 45 + 15 then AvailResult.scheduleFull
       else AvailResult.available (minutesToTime (23 * 60 + 45)) 2) :=
  C6_availability envNight 10 "2024-06-12" "Wednesday" 201 100 stateNight
    doctorNightWindow sampleService15
    { dayOfWeek := "Wednesday", isAvailable := true
      startTime := "20:00", endTime := "00:00", hospital := some 100 }
    rfl rfl rfl rfl rfl

/-! ## C8 — call-next helper lemmas -/

theorem filter_map_invariant {α : Type} (g : α → α) (p : α → Bool) (l : List α)
    (hg : ∀ q ∈ l, p (g q) = p q ∧ (p q = true → g q = q)) :
    (l.map g).filter p = l.filter p := by
  induction l with
  | nil => rfl
  | cons q qs ih =>
    obtain ⟨h1, h2⟩ := hg q (List.mem_cons_self q qs)
    have ihx := ih (fun x hx => hg x (List.mem_cons_of_mem _ hx))
    simp only [List.map_cons, List.filter_cons]
    rw [h1]
    cases hp : p q with
    | false => simpa using ihx
    | true => simp only [if_pos]; rw [h2 hp, ihx]

theorem foldl_pickEarlier_mem :
    ∀ (l : List QueueItem) (acc : Option QueueItem) (x : QueueItem),
      l.foldl pickEarlier acc = some x → acc = some x ∨ x ∈ l := by
  intro l
  induction l with
  | nil => intro acc x h; exact Or.inl h
  | cons q qs ih =>
    intro acc x h
    rcases ih (pickEarlier acc q) x h with h1 | h2
    · cases acc with
      | none =>
        simp only [pickEarlier] at h1
        cases h1
        exact Or.inr (List.mem_cons_self _ _)
      | some b =>
        simp only [pickEarlier] at h1
        by_cases hlt : q.checkInTime < b.checkInTime
        · rw [if_pos hlt] at h1
          cases h1
          exact Or.inr (List.mem_cons_self _ _)
        · rw [if_neg hlt] at h1
          exact Or.inl h1
    · exact Or.inr (List.mem_cons_of_mem _ h2)

theorem earliestWaiting_mem {s : ClinicState} {d : UserId} {w : QueueItem}
    (h : earliestWaiting s d = some w) :
    w ∈ s.queueItems ∧ w.doctor = d ∧ w.status = QStatus.Waiting := by
  unfold earliestWaiting at h
  rcases foldl_pickEarlier_mem _ _ _ h with h1 | h2
  · exact absurd h1 (by simp)
  · have hm := List.mem_filter.mp h2
    have hp : w.doctor = d ∧ w.status = QStatus.Waiting := by simpa using hm.2
    exact ⟨hm.1, hp.1, hp.2⟩

theorem earliestWaiting_congr {s s' : ClinicState} (h : s.queueItems = s'.queueItems)
    (d : UserId) : earliestWaiting s d = earliestWaiting s' d := by
  unfold earliestWaiting
  rw [h]

/-- Two queue items of a duplicate-free store with the same id are equal. -/
theorem queueItem_eq_of_id {l : List QueueItem} {q cs : QueueItem}
    (hN : (l.map (fun x => x.id)).Nodup) (hq : q ∈ l) (hcs : cs ∈ l)
    (hid : q.id = cs.id) : q = cs :=
  List.inj_on_of_nodup_map hN hq hcs hid

theorem callNextFinishServing_wallets (env : Env) (d : UserId) (s : ClinicState) :
    (callNextFinishServing env d s).wallets = s.wallets := by
  unfold callNextFinishServing
  split
  · rfl
  · split
    · rfl
    · simp only []
      split <;> rfl

theorem callNextFinishServing_transactions (env : Env) (d : UserId) (s : ClinicState) :
    (callNextFinishServing env d s).transactions = s.transactions := by
  unfold callNextFinishServing
  split
  · rfl
  · split
    · rfl
    · simp only []
      split <;> rfl

theorem callNextFinishServing_notifications (env : Env) (d : UserId) (s : ClinicState) :
    (callNextFinishServing env d s).notifications = s.notifications := by
  unfold callNextFinishServing
  split
  · rfl
  · split
    · rfl
    · simp only []
      split <;> rfl

theorem callNextPromote_wallets (d : UserId) (s : ClinicState) :
    (callNextPromote d s).wallets = s.wallets := by
  unfold callNextPromote
  split <;> rfl

theorem callNextPromote_transactions (d : UserId) (s : ClinicState) :
    (callNextPromote d s).transactions = s.transactions := by
  unfold callNextPromote
  split <;> rfl

theorem callNextPromote_notifications (d : UserId) (s : ClinicState) :
    (callNextPromote d s).notifications = s.notifications := by
  unfold callNextPromote
  split <;> rfl

theorem callNextPromote_appointments (d : UserId) (s : ClinicState) :
    (callNextPromote d s).appointments = s.appointments := by
  unfold callNextPromote
  split <;> rfl

theorem callNextNotify_queueItems (d : UserId) (ok : Bool) (s : ClinicState) :
    (callNextNotify d ok s).queueItems = s.queueItems := by
  unfold callNextNotify
  split
  · rfl
  · split
    · rfl
    · rw [createNotification_queueItems]

theorem callNextNotify_appointments (d : UserId) (ok : Bool) (s : ClinicState) :
    (callNextNotify d ok s).appointments = s.appointments := by
  unfold callNextNotify
  split
  · rfl
  · split
    · rfl
    · rw [createNotification_appointments]

theorem callNextNotify_wallets (d : UserId) (ok : Bool) (s : ClinicState) :
    (callNextNotify d ok s).wallets = s.wallets := by
  unfold callNextNotify
  split
  · rfl
  · split
    · rfl
    · rw [createNotification_wallets]

theorem callNextNotify_transactions (d : UserId) (ok : Bool) (s : ClinicState) :
    (callNextNotify d ok s).transactions = s.transactions := by
  unfold callNextNotify
  split
  · rfl
  · split
    · rfl
    · rw [createNotification_transactions]

theorem callNextFinishServing_queueItems (env : Env) (d : UserId) (s : ClinicState) :
    (callNextFinishServing env d s).queueItems =
      match s.queueItems.find? (fun q => q.doctor = d ∧ q.status = QStatus.Serving) with
      | none => s.queueItems
      | some cs => s.queueItems.map (fun q =>
          if q.id = cs.id then { q with status := QStatus.Done } else q) := by
  unfold callNextFinishServing
  cases hServ : s.queueItems.find? (fun q => q.doctor = d ∧ q.status = QStatus.Serving) with
  | none => rfl
  | some cs =>
    simp only []
    split
    · rfl
    · split <;> rfl

theorem callNextFinishServing_appointments (env : Env) (d : UserId) (s : ClinicState) :
    (callNextFinishServing env d s).appointments =
      match s.queueItems.find? (fun q => q.doctor = d ∧ q.status = QStatus.Serving) with
      | none => s.appointments
      | some cs =>
        match cs.user with
        | none => s.appointments
        | some u =>
          match s.appointments.find? (fun a =>
              a.user = u ∧ a.doctor = d ∧ a.status = ApptStatus.Upcoming ∧
              a.date = env.today) with
          | none => s.appointments
          | some a => s.appointments.map (fun b =>
              if b.id = a.id then { b with status := ApptStatus.Completed } else b) := by
  unfold callNextFinishServing
  cases hServ : s.queueItems.find? (fun q => q.doctor = d ∧ q.status = QStatus.Serving) with
  | none => rfl
  | some cs =>
    simp only []
    cases cs.user with
    | none => rfl
    | some u =>
      simp only []
      rw [show (updateQueueItem s cs.id (fun q =>
        { q with status := QStatus.Done })).appointments = s.appointments from rfl]
      split <;> rfl

/-- Step 1 never disturbs which entry is the earliest `Waiting` one: it only
moves a `Serving` entry to `Done`. -/
theorem earliestWaiting_finishServing (env : Env) (d : UserId) (s : ClinicState)
    (hNodupQ : (s.queueItems.map (fun q => q.id)).Nodup) :
    earliestWaiting (callNextFinishServing env d s) d = earliestWaiting s d := by
  cases hServ : s.queueItems.find? (fun q =>
      q.doctor = d ∧ q.status = QStatus.Serving) with
  | none =>
    have h := callNextFinishServing_queueItems env d s
    rw [hServ] at h
    exact earliestWaiting_congr h d
  | some cs =>
    have h := callNextFinishServing_queueItems env d s
    rw [hServ] at h
    have hcsMem : cs ∈ s.queueItems := List.mem_of_find?_eq_some hServ
    have hcsP : cs.doctor = d ∧ cs.status = QStatus.Serving := by
      have := List.find?_some hServ
      simpa using this
    unfold earliestWaiting
    rw [h]
    rw [filter_map_invariant _ _ _ ?_]
    intro q hq
    by_cases hid : q.id = cs.id
    · have hqeq : q = cs := queueItem_eq_of_id hNodupQ hq hcsMem hid
      subst hqeq
      constructor
      · simp [hcsP.2]
      · intro hp
        have : q.status = QStatus.Waiting := by simpa using (of_decide_eq_true hp).2
        rw [hcsP.2] at this
        exact absurd this (by simp)
    · constructor
      · rw [if_neg hid]
      · intro _
        rw [if_neg hid]

/-- C8: `callNextPatient` (a) finishes the current `Serving` entry and marks
its registered patient's same-day `Upcoming` appointment `Completed`, (b)
promotes the earliest-`checkInTime` `Waiting` entry to `Serving`, and (c)
notifies the entry that is afterwards the earliest remaining `Waiting` one
when it belongs to a registered patient — and the notification's failure
(`notifOk = false`) changes neither the queue nor the appointments. -/
theorem C8_callNext (env : Env) (d : UserId) (s : ClinicState)
    (hNodupQ : (s.queueItems.map (fun q => q.id)).Nodup) :
    ((callNextPatient env d true s).queueItems =
        (callNextPatient env d false s).queueItems ∧
     (callNextPatient env d true s).appointments =
        (callNextPatient env d false s).appointments) ∧
    (∀ cs, s.queueItems.find? (fun q =>
        q.doctor = d ∧ q.status = QStatus.Serving) = some cs →
      ∀ ok, ({ cs with status := QStatus.Done } ∈ (callNextPatient env d ok s).queueItems ∧
        (∀ u a, cs.user = some u →
          s.appointments.find? (fun b => b.user = u ∧ b.doctor = d ∧
            b.status = ApptStatus.Upcoming ∧ b.date = env.today) = some a →
          { a with status := ApptStatus.Completed } ∈
            (callNextPatient env d ok s).appointments))) ∧
    (∀ w, earliestWaiting s d = some w → ∀ ok,
      { w with status := QStatus.Serving } ∈ (callNextPatient env d ok s).queueItems) ∧
    (∀ ok u up, earliestWaiting (callNextPatient env d ok s) d = some up →
      up.user = some u → ok = true →
      (callNextPatient env d ok s).notifications = s.notifications ++ [u]) ∧
    (∀ ok, (earliestWaiting (callNextPatient env d ok s) d = none ∨
        (∃ up, earliestWaiting (callNextPatient env d ok s) d = some up ∧ up.user = none) ∨
        ok = false) →
      (callNextPatient env d ok s).notifications = s.notifications) := by
  have hEW1 := earliestWaiting_finishServing env d s hNodupQ
  have hQfinal : ∀ ok, (callNextPatient env d ok s).queueItems =
      (callNextPromote d (callNextFinishServing env d s)).queueItems := by
    intro ok
    unfold callNextPatient
    rw [callNextNotify_queueItems]
  have hAfinal : ∀ ok, (callNextPatient env d ok s).appointments =
      (callNextPromote d (callNextFinishServing env d s)).appointments := by
    intro ok
    unfold callNextPatient
    rw [callNextNotify_appointments]
  have hEWfinal : ∀ ok, earliestWaiting (callNextPatient env d ok s) d =
      earliestWaiting (callNextPromote d (callNextFinishServing env d s)) d := by
    intro ok
    exact earliestWaiting_congr (hQfinal ok) d
  have hNotif2 : (callNextPromote d (callNextFinishServing env d s)).notifications =
      s.notifications := by
    rw [callNextPromote_notifications, callNextFinishServing_notifications]
  refine ⟨⟨by rw [hQfinal true, hQfinal false], by rw [hAfinal true, hAfinal false]⟩,
    ?_, ?_, ?_, ?_⟩
  · -- (a) finish the Serving entry
    intro cs hServ ok
    have hQ1 := callNextFinishServing_queueItems env d s
    rw [hServ] at hQ1
    have hcsMem : cs ∈ s.queueItems := List.mem_of_find?_eq_some hServ
    have hcsP : cs.doctor = d ∧ cs.status = QStatus.Serving := by
      have := List.find?_some hServ
      simpa using this
    have hDone1 : { cs with status := QStatus.Done } ∈
        (callNextFinishServing env d s).queueItems := by
      rw [hQ1]
      have := List.mem_map_of_mem (fun q =>
        if q.id = cs.id then { q with status := QStatus.Done } else q) hcsMem
      simpa using this
    constructor
    · rw [hQfinal ok]
      unfold callNextPromote
      cases hW : earliestWaiting (callNextFinishServing env d s) d with
      | none => exact hDone1
      | some w =>
        simp only []
        have hwS : w ∈ s.queueItems ∧ w.doctor = d ∧ w.status = QStatus.Waiting := by
          rw [hEW1] at hW
          exact earliestWaiting_mem hW
        have hne : cs.id ≠ w.id := by
          intro hid
          have : cs = w := queueItem_eq_of_id hNodupQ hcsMem hwS.1 hid
          rw [this, hwS.2.2] at hcsP
          exact absurd hcsP.2 (by simp)
        unfold updateQueueItem
        have := List.mem_map_of_mem (fun q =>
          if q.id = w.id then { q with status := QStatus.Serving } else q) hDone1
        simpa [hne] using this
    · intro u a hcu hA
      rw [hAfinal ok, callNextPromote_appointments]
      have hA1 := callNextFinishServing_appointments env d s
      rw [hServ] at hA1
      simp only [hcu] at hA1
      rw [hA] at hA1
      rw [hA1]
      have haMem : a ∈ s.appointments := List.mem_of_find?_eq_some hA
      have := List.mem_map_of_mem (fun b =>
        if b.id = a.id then { b with status := ApptStatus.Completed } else b) haMem
      simpa using this
  · -- (b) promote the earliest Waiting entry
    intro w hEW ok
    rw [hQfinal ok]
    have hW1 : earliestWaiting (callNextFinishServing env d s) d = some w := by
      rw [hEW1]; exact hEW
    unfold callNextPromote
    rw [hW1]
    simp only []
    have hwMem : w ∈ (callNextFinishServing env d s).queueItems :=
      (earliestWaiting_mem hW1).1
    unfold updateQueueItem
    have := List.mem_map_of_mem (fun q =>
      if q.id = w.id then { q with status := QStatus.Serving } else q) hwMem
    simpa using this
  · -- (c) successful notification goes to the new earliest Waiting entry
    intro ok u up hup hu hok
    subst hok
    have hup2 : earliestWaiting (callNextPromote d (callNextFinishServing env d s)) d =
        some up := by rw [← hEWfinal true]; exact hup
    show (callNextNotify d true (callNextPromote d (callNextFinishServing env d s))).notifications
      = s.notifications ++ [u]
    unfold callNextNotify
    rw [hup2]
    simp only [hu]
    unfold createNotification
    simp [hNotif2]
  · -- (c) otherwise the notification log is untouched
    intro ok hcase
    show (callNextNotify d ok (callNextPromote d (callNextFinishServing env d s))).notifications
      = s.notifications
    rcases hcase with hnone | ⟨up, hup, hu⟩ | hok
    · have : earliestWaiting (callNextPromote d (callNextFinishServing env d s)) d = none := by
        rw [← hEWfinal ok]; exact hnone
      unfold callNextNotify
      rw [this]
      exact hNotif2
    · have hup2 : earliestWaiting (callNextPromote d (callNextFinishServing env d s)) d =
          some up := by rw [← hEWfinal ok]; exact hup
      unfold callNextNotify
      rw [hup2]
      simp only [hu]
      exact hNotif2
    · subst hok
      unfold callNextNotify
      cases hW : earliestWaiting (callNextPromote d (callNextFinishServing env d s)) d with
      | none => exact hNotif2
      | some up =>
        simp only []
        cases up.user with
        | none => exact hNotif2
        | some u =>
          unfold createNotification
          simp [hNotif2]

/-- C8 witness: in `stateQueueBusy` (doctor 10 serving patient 1, patients 2
and 3 waiting, patient 1 holding today's appointment) a call-next marks the
serving entry `Done`, completes the appointment, and promotes patient 2. -/
theorem C8_witness :
    { (stateQueueBusy.queueItems.get ⟨0, by decide⟩) with status := QStatus.Done } ∈
      (callNextPatient sampleEnv 10 true stateQueueBusy).queueItems ∧
    { (stateQueueBusy.appointments.get ⟨0, by decide⟩) with status := ApptStatus.Completed } ∈
      (callNextPatient sampleEnv 10 true stateQueueBusy).appointments :=
  have h := (C8_callNext sampleEnv 10 stateQueueBusy (by decide)).2.1
    (stateQueueBusy.queueItems.get ⟨0, by decide⟩) (by decide) true
  ⟨h.1, h.2 1 (stateQueueBusy.appointments.get ⟨0, by decide⟩) (by decide) (by decide)⟩

/-! ## C9 — reminder-pass idempotence -/

theorem sentCount_append (l1 l2 : List (Nat × Bool)) (aid : Nat) :
    sentCount (l1 ++ l2) aid = sentCount l1 aid + sentCount l2 aid := by
  unfold sentCount
  rw [List.filter_append, List.length_append]

theorem sentCount_single (i : Nat) (b : Bool) (aid : Nat) :
    sentCount [(i, b)] aid = if i = aid ∧ b = true then 1 else 0 := by
  by_cases h : i = aid ∧ b = true
  · simp [sentCount, List.filter, h]
  · simp [sentCount, List.filter, h]

theorem markReminderSent_id (is24h : Bool) (st : Nat) (a : Appointment) :
    (markReminderSent is24h st a).id = a.id := by
  unfold markReminderSent
  split <;> rfl

theorem markReminderSent_flag (is24h : Bool) (st : Nat) (a : Appointment) :
    reminderFlag is24h (markReminderSent is24h st a) = true := by
  cases is24h <;> simp [reminderFlag, markReminderSent]

theorem markReminderSent_sentAt (is24h : Bool) (st : Nat) (a : Appointment) :
    reminderSentAt is24h (markReminderSent is24h st a) = some st := by
  cases is24h <;> simp [reminderSentAt, markReminderSent]

/-- A candidate of the pass query has its per-class flag still clear. -/
theorem candidate_flag_false {is24h : Bool} {a : Appointment}
    (h : reminderCandidate is24h a = true) : reminderFlag is24h a = false := by
  cases is24h <;> simp_all [reminderCandidate, reminderFlag]

/-- `sendDoctorReminder` either leaves the appointment alone with no dispatch,
or makes exactly one dispatch attempt for it, persisting the flag on success. -/
theorem sendDoctorReminder_cases (env : Env) (s : Nat → Bool) (is24h : Bool)
    (st : Nat) (a : Appointment) :
    sendDoctorReminder env s is24h st a = (a, []) ∨
    sendDoctorReminder env s is24h st a =
      ((if s a.id then markReminderSent is24h st a else a), [(a.id, s a.id)]) := by
  unfold sendDoctorReminder
  cases hu : findUser env a.doctor with
  | none => exact Or.inl rfl
  | some doctor =>
    simp only []
    by_cases h1 : doctor.isDisabled = true ∨ ¬ doctor.isActive = true
    · rw [if_pos h1]
      exact Or.inl rfl
    · rw [if_neg h1]
      by_cases h2 : ¬ doctor.reminderPrefEnabled = true
      · rw [if_pos h2]
        exact Or.inl rfl
      · rw [if_neg h2]
        by_cases h3 : is24h = true ∧ ¬ doctor.reminderPref24h = true
        · rw [if_pos h3]
          exact Or.inl rfl
        · rw [if_neg h3]
          by_cases h4 : ¬ is24h = true ∧ ¬ doctor.reminderPref1h = true
          · rw [if_pos h4]
            exact Or.inl rfl
          · rw [if_neg h4]
            exact Or.inr rfl

/-- One candidate step either leaves the appointment alone with an empty log,
or (only for a query candidate) performs the single dispatch attempt. -/
theorem processReminderOne_cases (env : Env) (s : Nat → Bool) (is24h : Bool)
    (now sW eW : Instant) (st : Nat) (a : Appointment) :
    processReminderOne env s is24h now sW eW st a = (a, []) ∨
    (reminderCandidate is24h a = true ∧
      processReminderOne env s is24h now sW eW st a =
        ((if s a.id then markReminderSent is24h st a else a), [(a.id, s a.id)])) := by
  unfold processReminderOne
  by_cases hc : reminderCandidate is24h a = true
  · rw [if_neg (not_not_intro hc)]
    cases hp : parseAppointmentDateTime a.date a.time with
    | none => exact Or.inl rfl
    | some inst =>
      simp only []
      by_cases hb : inst.between sW eW = true
      · rw [if_neg (not_not_intro hb)]
        by_cases hbef : inst.before now = true
        · rw [if_pos hbef]
          exact Or.inl rfl
        · rw [if_neg hbef]
          rcases sendDoctorReminder_cases env s is24h st a with h | h
          · exact Or.inl h
          · exact Or.inr ⟨hc, h⟩
      · rw [if_pos hb]
        exact Or.inl rfl
  · rw [if_pos hc]
    exact Or.inl rfl

theorem processReminderOne_id (env : Env) (s : Nat → Bool) (is24h : Bool)
    (now sW eW : Instant) (st : Nat) (a : Appointment) :
    (processReminderOne env s is24h now sW eW st a).1.id = a.id := by
  rcases processReminderOne_cases env s is24h now sW eW st a with h | ⟨-, h⟩
  · rw [h]
  · rw [h]
    by_cases hs : s a.id = true <;> simp [hs, markReminderSent_id]

/-- One unfolding step of the pass, with both recursive results destructured. -/
theorem processReminderPass_cons {env : Env} {s : Nat → Bool} {is24h : Bool}
    {now sW eW : Instant} {st : Nat} {a : Appointment} {rest : List Appointment}
    {a1 : Appointment} {l1 : List (Nat × Bool)} {r2 : List Appointment}
    {l2 : List (Nat × Bool)}
    (h1 : processReminderOne env s is24h now sW eW st a = (a1, l1))
    (h2 : processReminderPass env s is24h now sW eW st rest = (r2, l2)) :
    processReminderPass env s is24h now sW eW st (a :: rest) = (a1 :: r2, l1 ++ l2) := by
  simp only [processReminderPass, h1, h2]

/-- The pass keeps the appointment ids (in order). -/
theorem processReminderPass_ids (env : Env) (s : Nat → Bool) (is24h : Bool)
    (now sW eW : Instant) (st : Nat) :
    ∀ appts : List Appointment,
      ((processReminderPass env s is24h now sW eW st appts).1).map (fun a => a.id) =
        appts.map (fun a => a.id) := by
  intro appts
  induction appts with
  | nil => rfl
  | cons a rest ih =>
    rcases h2 : processReminderPass env s is24h now sW eW st rest with ⟨r2, l2⟩
    rcases h1 : processReminderOne env s is24h now sW eW st a with ⟨a1, l1⟩
    have hid := processReminderOne_id env s is24h now sW eW st a
    simp only [h1] at hid
    simp only [h2] at ih
    simp only [processReminderPass_cons h1 h2, List.map_cons]
    rw [hid, ih]

/-- If every appointment carrying the id already has its flag set (in
particular if no appointment carries the id at all), the pass makes no
successful dispatch for that id. -/
theorem processReminderPass_flagged_zero (env : Env) (s : Nat → Bool) (is24h : Bool)
    (now sW eW : Instant) (st : Nat) (aid : Nat) :
    ∀ appts : List Appointment,
      (∀ a ∈ appts, a.id = aid → reminderFlag is24h a = true) →
      sentCount (processReminderPass env s is24h now sW eW st appts).2 aid = 0 := by
  intro appts
  induction appts with
  | nil => intro _; rfl
  | cons a rest ih =>
    intro hall
    rcases h2 : processReminderPass env s is24h now sW eW st rest with ⟨r2, l2⟩
    rcases h1 : processReminderOne env s is24h now sW eW st a with ⟨a1, l1⟩
    simp only [processReminderPass_cons h1 h2]
    rw [sentCount_append]
    have htail : sentCount l2 aid = 0 := by
      have hz := ih (fun a' ha' => hall a' (List.mem_cons_of_mem a ha'))
      rw [h2] at hz
      exact hz
    have hhead : sentCount l1 aid = 0 := by
      rcases processReminderOne_cases env s is24h now sW eW st a with hcase | ⟨hc, hcase⟩
      · rw [h1] at hcase
        injection hcase with ha1 hl1
        subst hl1
        rfl
      · rw [h1] at hcase
        injection hcase with ha1 hl1
        subst hl1
        rw [sentCount_single]
        by_cases hid : a.id = aid
        · have hfl := hall a (List.mem_cons_self a rest) hid
          rw [candidate_flag_false hc] at hfl
          exact absurd hfl (by simp)
        · simp [hid]
    rw [htail, hhead]

/-- Over a duplicate-free collection a single pass makes at most one
successful dispatch per id, and a pass that did dispatch for an id leaves
that appointment flagged with the pass's sent-at stamp. -/
theorem processReminderPass_main (env : Env) (s : Nat → Bool) (is24h : Bool)
    (now sW eW : Instant) (st : Nat) (aid : Nat) :
    ∀ appts : List Appointment, ((appts.map (fun a => a.id)).Nodup) →
      sentCount (processReminderPass env s is24h now sW eW st appts).2 aid ≤ 1 ∧
      (sentCount (processReminderPass env s is24h now sW eW st appts).2 aid = 1 →
        ∃ a' ∈ (processReminderPass env s is24h now sW eW st appts).1,
          a'.id = aid ∧ reminderFlag is24h a' = true ∧
            reminderSentAt is24h a' = some st) := by
  intro appts
  induction appts with
  | nil =>
    intro _
    exact ⟨Nat.zero_le 1, fun h => absurd h Nat.zero_ne_one⟩
  | cons a rest ih =>
    intro hN
    rw [List.map_cons, List.nodup_cons] at hN
    obtain ⟨hnotin, hN'⟩ := hN
    obtain ⟨hle, hpers⟩ := ih hN'
    rcases h2 : processReminderPass env s is24h now sW eW st rest with ⟨r2, l2⟩
    rcases h1 : processReminderOne env s is24h now sW eW st a with ⟨a1, l1⟩
    simp only [h2] at hle hpers
    simp only [processReminderPass_cons h1 h2]
    by_cases hid : a.id = aid
    · have hallRest : ∀ a' ∈ rest, a'.id = aid → reminderFlag is24h a' = true := by
        intro a' ha' hid'
        exfalso
        apply hnotin
        have hmem : a'.id ∈ rest.map (fun x => x.id) := List.mem_map_of_mem _ ha'
        rw [hid', ← hid] at hmem
        exact hmem
      have htail : sentCount l2 aid = 0 := by
        have hz := processReminderPass_flagged_zero env s is24h now sW eW st aid rest hallRest
        rw [h2] at hz
        exact hz
      rcases processReminderOne_cases env s is24h now sW eW st a with hcase | ⟨hc, hcase⟩
      · rw [h1] at hcase
        injection hcase with ha1 hl1
        subst hl1
        constructor
        · rw [List.nil_append, htail]
          exact Nat.zero_le 1
        · intro hone
          rw [List.nil_append, htail] at hone
          exact absurd hone Nat.zero_ne_one
      · rw [h1] at hcase
        injection hcase with ha1 hl1
        subst hl1
        subst ha1
        by_cases hs : s a.id = true
        · constructor
          · rw [sentCount_append, htail, sentCount_single, if_pos (And.intro hid hs)]
          · intro _
            refine ⟨markReminderSent is24h st a, ?_, ?_,
              markReminderSent_flag is24h st a, markReminderSent_sentAt is24h st a⟩
            · rw [if_pos hs]
              exact List.mem_cons_self _ _
            · rw [markReminderSent_id]
              exact hid
        · constructor
          · rw [sentCount_append, htail, sentCount_single]
            simp [hs]
          · intro hone
            rw [sentCount_append, htail, sentCount_single] at hone
            simp [hs] at hone
    · have hhead : sentCount l1 aid = 0 := by
        rcases processReminderOne_cases env s is24h now sW eW st a with hcase | ⟨-, hcase⟩
        · rw [h1] at hcase
          injection hcase with ha1 hl1
          subst hl1
          rfl
        · rw [h1] at hcase
          injection hcase with ha1 hl1
          subst hl1
          rw [sentCount_single]
          simp [hid]
      constructor
      · rw [sentCount_append, hhead, Nat.zero_add]
        exact hle
      · intro hone
        rw [sentCount_append, hhead, Nat.zero_add] at hone
        obtain ⟨a', ha', hP⟩ := hpers hone
        exact ⟨a', List.mem_cons_of_mem _ ha', hP⟩

/-- Two appointments of a duplicate-free store with the same id are equal. -/
theorem appointment_eq_of_id {l : List Appointment} {x y : Appointment}
    (hN : (l.map (fun a => a.id)).Nodup) (hx : x ∈ l) (hy : y ∈ l)
    (hid : x.id = y.id) : x = y :=
  List.inj_on_of_nodup_map hN hx hy hid

/-- **C9**: running the 24h (or 1h) reminder pass twice in immediate
succession — with arbitrary dispatch outcomes, instants and windows in each
run — makes at most one successful dispatch per appointment id and per
reminder class; an appointment whose per-class `…Sent` flag is already set
receives none at all from a pass (the candidate query excludes it); and a
pass that did dispatch for an id leaves that appointment's flag set together
with the pass's sent-at timestamp. -/
theorem C9_reminder_idempotent (env : Env) (sendOk1 sendOk2 : Nat → Bool)
    (is24h : Bool) (now1 sW1 eW1 : Instant) (st1 : Nat)
    (now2 sW2 eW2 : Instant) (st2 : Nat)
    (appts : List Appointment) (aid : Nat)
    (hN : (appts.map (fun a => a.id)).Nodup) :
    sentCount ((processReminderPass env sendOk1 is24h now1 sW1 eW1 st1 appts).2 ++
        (processReminderPass env sendOk2 is24h now2 sW2 eW2 st2
          (processReminderPass env sendOk1 is24h now1 sW1 eW1 st1 appts).1).2) aid ≤ 1 ∧
    ((∃ a ∈ appts, a.id = aid ∧ reminderFlag is24h a = true) →
      sentCount (processReminderPass env sendOk1 is24h now1 sW1 eW1 st1 appts).2 aid = 0) ∧
    (sentCount (processReminderPass env sendOk1 is24h now1 sW1 eW1 st1 appts).2 aid = 1 →
      ∃ a' ∈ (processReminderPass env sendOk1 is24h now1 sW1 eW1 st1 appts).1,
        a'.id = aid ∧ reminderFlag is24h a' = true ∧
          reminderSentAt is24h a' = some st1) := by
  have h1main := processReminderPass_main env sendOk1 is24h now1 sW1 eW1 st1 aid appts hN
  have hids := processReminderPass_ids env sendOk1 is24h now1 sW1 eW1 st1 appts
  have hN1 : (((processReminderPass env sendOk1 is24h now1 sW1 eW1 st1 appts).1).map
      (fun a => a.id)).Nodup := by
    rw [hids]
    exact hN
  have h2main := processReminderPass_main env sendOk2 is24h now2 sW2 eW2 st2 aid _ hN1
  refine ⟨?_, ?_, h1main.2⟩
  · rw [sentCount_append]
    rcases Nat.eq_zero_or_pos
        (sentCount (processReminderPass env sendOk1 is24h now1 sW1 eW1 st1 appts).2 aid)
      with h0 | hpos
    · rw [h0, Nat.zero_add]
      exact h2main.1
    · have hone : sentCount (processReminderPass env sendOk1 is24h now1 sW1 eW1 st1
          appts).2 aid = 1 := Nat.le_antisymm h1main.1 hpos
      obtain ⟨a', ha', hid', hfl', -⟩ := h1main.2 hone
      have h20 : sentCount (processReminderPass env sendOk2 is24h now2 sW2 eW2 st2
          (processReminderPass env sendOk1 is24h now1 sW1 eW1 st1 appts).1).2 aid = 0 := by
        apply processReminderPass_flagged_zero
        intro b hb hbid
        have hba : b = a' := appointment_eq_of_id hN1 hb ha' (by rw [hbid, hid'])
        rw [hba]
        exact hfl'
      rw [hone, h20]
  · rintro ⟨a0, ha0, hid0, hfl0⟩
    apply processReminderPass_flagged_zero
    intro b hb hbid
    have hba : b = a0 := appointment_eq_of_id hN hb ha0 (by rw [hbid, hid0])
    rw [hba]
    exact hfl0

/-- C9 witness: over `stateReminder` (one eligible `Upcoming` appointment,
id 0, tomorrow 10:00 AM) two successive 24-hour passes with every dispatch
succeeding send at most one reminder, and the first pass — which did send,
as the discharged `sentCount = 1` hypothesis shows — left the appointment
flagged with its timestamp. -/
theorem C9_witness :
    (stateReminder.map (fun a => a.id)).Nodup ∧
    sentCount ((processReminderPass sampleEnv (fun _ => true) true
        ⟨"2024-06-10", 600⟩ ⟨"2024-06-11", 570⟩ ⟨"2024-06-11", 630⟩ 100 stateReminder).2 ++
      (processReminderPass sampleEnv (fun _ => true) true
        ⟨"2024-06-10", 660⟩ ⟨"2024-06-11", 570⟩ ⟨"2024-06-11", 630⟩ 200
        (processReminderPass sampleEnv (fun _ => true) true
          ⟨"2024-06-10", 600⟩ ⟨"2024-06-11", 570⟩ ⟨"2024-06-11", 630⟩ 100
          stateReminder).1).2) 0 ≤ 1 ∧
    (∃ a' ∈ (processReminderPass sampleEnv (fun _ => true) true
        ⟨"2024-06-10", 600⟩ ⟨"2024-06-11", 570⟩ ⟨"2024-06-11", 630⟩ 100 stateReminder).1,
      a'.id = 0 ∧ reminderFlag true a' = true ∧ reminderSentAt true a' = some 100) :=
  have h := C9_reminder_idempotent sampleEnv (fun _ => true) (fun _ => true) true
    ⟨"2024-06-10", 600⟩ ⟨"2024-06-11", 570⟩ ⟨"2024-06-11", 630⟩ 100
    ⟨"2024-06-10", 660⟩ ⟨"2024-06-11", 570⟩ ⟨"2024-06-11", 630⟩ 200
    stateReminder 0 (by decide)
  ⟨by decide, h.1, h.2.2 (by decide)⟩

/-! ## C1 — booking atomicity and ledger effects -/

theorem bookInsert_appointments (env : Env) (req : BookReq) (t : UserId)
    (ty : AppointmentTypeRec) (doctor : UserRec) (hospId : Nat) (s : ClinicState) :
    (bookInsert env req t ty doctor hospId s).appointments =
      s.appointments ++ [bookNewAppt req t ty doctor hospId s] := by
  unfold bookInsert
  simp only []
  split <;> rfl

theorem bookInsert_wallets (env : Env) (req : BookReq) (t : UserId)
    (ty : AppointmentTypeRec) (doctor : UserRec) (hospId : Nat) (s : ClinicState) :
    (bookInsert env req t ty doctor hospId s).wallets = s.wallets := by
  unfold bookInsert
  simp only []
  split <;> rfl

theorem bookInsert_transactions (env : Env) (req : BookReq) (t : UserId)
    (ty : AppointmentTypeRec) (doctor : UserRec) (hospId : Nat) (s : ClinicState) :
    (bookInsert env req t ty doctor hospId s).transactions = s.transactions := by
  unfold bookInsert
  simp only []
  split <;> rfl

theorem walletBalance_congr {s' s : ClinicState} (h : s'.wallets = s.wallets)
    (u : UserId) : walletBalance s' u = walletBalance s u := by
  unfold walletBalance findWallet
  rw [h]

theorem bookErrStatus_ne (e : ApiErr) : bookErrStatus e ≠ 201 := by
  cases e <;> decide

theorem resolveTargetUser_error {req : BookReq} {c : Nat}
    (h : resolveTargetUser req = .error c) : c = 400 ∨ c = 403 := by
  unfold resolveTargetUser at h
  by_cases hs : staffRoles.contains req.callerRole = true
  · rw [if_pos hs] at h
    cases hp : req.patientId with
    | none =>
      rw [hp] at h
      simp only [] at h
      exact Or.inl (((Except.error.injEq _ _).mp h).symm)
    | some pid =>
      rw [hp] at h
      simp only [] at h
      exact absurd h (by simp)
  · rw [if_neg hs] at h
    by_cases hr : req.callerRole ≠ "patient"
    · rw [if_pos hr] at h
      exact Or.inr (((Except.error.injEq _ _).mp h).symm)
    · rw [if_neg hr] at h
      exact absurd h (by simp)

/-- Every terminal of the booking route either answers 201 or leaves the
store untouched (the transaction aborted wholesale before any write). -/
theorem book_cases (env : Env) (req : BookReq) (s : ClinicState) :
    (bookAppointment env req s).statusCode = 201 ∨
    (bookAppointment env req s).state = s := by
  unfold bookAppointment
  cases hr : resolveTargetUser req with
  | error code => exact Or.inr rfl
  | ok target =>
    simp only []
    by_cases h1 : s.appointments.any (fun a =>
        a.user = target ∧ a.status = ApptStatus.Upcoming ∧ a.date = req.date ∧
        a.time = req.time ∧ some a.doctor = req.doctorId) = true
    · rw [if_pos h1]
      exact Or.inr rfl
    · rw [if_neg h1]
      by_cases h2 : ¬ req.force = true ∧ (softConflict req target s).isSome = true
      · rw [if_pos h2]
        exact Or.inr rfl
      · rw [if_neg h2]
        cases hv : validateBooking env req target with
        | error e => exact Or.inr rfl
        | ok trip =>
          obtain ⟨ty, doctor, hospId⟩ := trip
          simp only []
          cases hb : bookCore env req target ty doctor hospId s with
          | error e => exact Or.inr rfl
          | ok pr =>
            obtain ⟨aid, sOut⟩ := pr
            exact Or.inl rfl

/-- Inversion of a 201 answer: the route reached `bookCore` successfully. -/
theorem book_ok (env : Env) (req : BookReq) (s : ClinicState) :
    (bookAppointment env req s).statusCode = 201 →
    ∃ (target : UserId) (ty : AppointmentTypeRec) (doctor : UserRec)
      (hospId : Nat) (aid : Nat) (sOut : ClinicState),
      resolveTargetUser req = .ok target ∧
      validateBooking env req target = .ok (ty, doctor, hospId) ∧
      bookCore env req target ty doctor hospId s = .ok (aid, sOut) ∧
      bookAppointment env req s =
        { statusCode := 201, apptId := some aid, state := sOut } := by
  unfold bookAppointment
  cases hr : resolveTargetUser req with
  | error code =>
    intro h201
    have hc : code = 201 := h201
    rcases resolveTargetUser_error hr with h | h <;> rw [h] at hc <;>
      exact absurd hc (by decide)
  | ok target =>
    simp only []
    by_cases h1 : s.appointments.any (fun a =>
        a.user = target ∧ a.status = ApptStatus.Upcoming ∧ a.date = req.date ∧
        a.time = req.time ∧ some a.doctor = req.doctorId) = true
    · rw [if_pos h1]
      intro h201
      have hc : (409 : Nat) = 201 := h201
      exact absurd hc (by decide)
    · rw [if_neg h1]
      by_cases h2 : ¬ req.force = true ∧ (softConflict req target s).isSome = true
      · rw [if_pos h2]
        intro h201
        have hc : (409 : Nat) = 201 := h201
        exact absurd hc (by decide)
      · rw [if_neg h2]
        cases hv : validateBooking env req target with
        | error e =>
          intro h201
          have hc : bookErrStatus e = 201 := h201
          exact absurd hc (bookErrStatus_ne e)
        | ok trip =>
          obtain ⟨ty, doctor, hospId⟩ := trip
          simp only []
          cases hb : bookCore env req target ty doctor hospId s with
          | error e =>
            intro h201
            have hc : bookErrStatus e = 201 := h201
            exact absurd hc (bookErrStatus_ne e)
          | ok pr =>
            obtain ⟨aid, sOut⟩ := pr
            intro _
            exact ⟨target, ty, doctor, hospId, aid, sOut, rfl, hv, hb, rfl⟩

/-- What a successful `bookCore` creates: the appointment document, the
ledger suffix (debit only, or cash deposit followed by the debit), and the
net wallet effect. -/
theorem bookCore_ok {env : Env} {req : BookReq} {target : UserId}
    {ty : AppointmentTypeRec} {doctor : UserRec} {hospId : Nat} {s : ClinicState}
    {aid : Nat} {sOut : ClinicState}
    (h : bookCore env req target ty doctor hospId s = .ok (aid, sOut)) :
    aid = s.nextApptId ∧
    s.appointments.any
      (fun a => a.doctor = doctor.id ∧ a.date = req.date ∧ a.time = req.time) = false ∧
    ∃ appt : Appointment,
      sOut.appointments = s.appointments ++ [appt] ∧
      appt.id = s.nextApptId ∧ appt.user = target ∧ appt.doctor = doctor.id ∧
      appt.date = req.date ∧ appt.time = req.time ∧ appt.cost = ty.cost ∧
      appt.status = ApptStatus.Upcoming ∧
      (if req.cashPayment = true ∧ staffRoles.contains req.callerRole = true then
        (∃ txC txD : Transaction,
          sOut.transactions = s.transactions ++ [txC, txD] ∧
          txC.wallet = target ∧ txC.direction = TxDirection.credit ∧
          txC.amount = ty.cost ∧ txC.transactionType = "Deposit" ∧
          txD.wallet = target ∧ txD.direction = TxDirection.debit ∧
          txD.amount = ty.cost ∧ txD.transactionType = "Appointment Fee" ∧
          txD.referenceId = toString s.nextApptId) ∧
        walletBalance sOut target = walletBalance s target
      else
        (∃ txD : Transaction,
          sOut.transactions = s.transactions ++ [txD] ∧
          txD.wallet = target ∧ txD.direction = TxDirection.debit ∧
          txD.amount = ty.cost ∧ txD.transactionType = "Appointment Fee" ∧
          txD.referenceId = toString s.nextApptId) ∧
        walletBalance sOut target = walletBalance s target - ty.cost) := by
  unfold bookCore at h
  by_cases hcash : req.cashPayment = true ∧ staffRoles.contains req.callerRole = true
  case neg =>
    rw [if_neg hcash] at h
    simp only [] at h
    cases hw : findWallet s target with
    | none => rw [hw] at h; exact absurd h (by simp)
    | some w =>
      rw [hw] at h
      simp only [] at h
      by_cases hbal : w.balance < ty.cost
      · rw [if_pos hbal] at h
        exact absurd h (by simp)
      · rw [if_neg hbal] at h
        by_cases hdup : s.appointments.any
            (fun a => a.doctor = doctor.id ∧ a.date = req.date ∧ a.time = req.time) = true
        · rw [if_pos hdup] at h
          exact absurd h (by simp)
        · rw [if_neg hdup] at h
          cases htx : createTransactionAndUpdateWallet
              (bookDebitData target ty doctor hospId s.nextApptId)
              (bookInsert env req target ty doctor hospId s) with
          | error e => rw [htx] at h; exact absurd h (by simp)
          | ok s2 =>
            rw [htx] at h
            simp only [] at h
            have hpair := (Except.ok.injEq _ _).mp h
            injection hpair with haid hsOut
            subst haid
            subst hsOut
            obtain ⟨hA2, -, -, -, -, -, -, ⟨txD, hT2, htw, -, hta, htdir, httype, htref⟩,
              hB2⟩ := createTx_ok htx
            refine ⟨rfl, by simpa using hdup,
              bookNewAppt req target ty doctor hospId s, ?_,
              rfl, rfl, rfl, rfl, rfl, rfl, rfl, ?_⟩
            · rw [createNotification_appointments, hA2, bookInsert_appointments]
            · rw [if_neg hcash]
              refine ⟨⟨txD, ?_, htw, htdir, hta, httype, htref⟩, ?_⟩
              · rw [createNotification_transactions, hT2, bookInsert_transactions]
              · have hb2 := hB2 target
                simp [bookDebitData] at hb2
                rw [walletBalance_congr (createNotification_wallets true target s2) target,
                  hb2,
                  walletBalance_congr (bookInsert_wallets env req target ty doctor hospId s)
                    target]
                ring
  case pos =>
    rw [if_pos hcash] at h
    cases hc : createTransactionAndUpdateWallet (bookCashData target ty hospId s) s with
    | error e => rw [hc] at h; exact absurd h (by simp)
    | ok sA =>
      rw [hc] at h
      simp only [] at h
      obtain ⟨hA1, -, -, -, hNA1, -, -, ⟨txC, hT1, hcw, -, hca, hcdir, hctype, -⟩,
        hB1⟩ := createTx_ok hc
      cases hw : findWallet sA target with
      | none => rw [hw] at h; exact absurd h (by simp)
      | some w =>
        rw [hw] at h
        simp only [] at h
        by_cases hbal : w.balance < ty.cost
        · rw [if_pos hbal] at h
          exact absurd h (by simp)
        · rw [if_neg hbal] at h
          by_cases hdup : sA.appointments.any
              (fun a => a.doctor = doctor.id ∧ a.date = req.date ∧ a.time = req.time) = true
          · rw [if_pos hdup] at h
            exact absurd h (by simp)
          · rw [if_neg hdup] at h
            cases htx : createTransactionAndUpdateWallet
                (bookDebitData target ty doctor hospId sA.nextApptId)
                (bookInsert env req target ty doctor hospId sA) with
            | error e => rw [htx] at h; exact absurd h (by simp)
            | ok s2 =>
              rw [htx] at h
              simp only [] at h
              have hpair := (Except.ok.injEq _ _).mp h
              injection hpair with haid hsOut
              subst haid
              subst hsOut
              obtain ⟨hA2, -, -, -, -, -, -, ⟨txD, hT2, htw, -, hta, htdir, httype, htref⟩,
                hB2⟩ := createTx_ok htx
              rw [hA1] at hdup
              refine ⟨hNA1, by simpa using hdup,
                bookNewAppt req target ty doctor hospId sA, ?_,
                hNA1, rfl, rfl, rfl, rfl, rfl, rfl, ?_⟩
              · rw [createNotification_appointments, hA2, bookInsert_appointments, hA1]
              · rw [if_pos hcash]
                refine ⟨⟨txC, txD, ?_, hcw, hcdir, hca, hctype,
                  htw, htdir, hta, httype, ?_⟩, ?_⟩
                · rw [createNotification_transactions, hT2, bookInsert_transactions, hT1,
                    List.append_assoc]
                  rfl
                · rw [← hNA1]
                  exact htref
                · have hb2 := hB2 target
                  simp [bookDebitData] at hb2
                  have hb1 := hB1 target
                  simp [bookCashData] at hb1
                  rw [walletBalance_congr (createNotification_wallets true target s2) target,
                    hb2,
                    walletBalance_congr (bookInsert_wallets env req target ty doctor hospId sA)
                      target,
                    hb1]
                  ring

/-- C1 counterexample: a staff cash booking for patient 1 whose wallet holds
0 succeeds (201) — the cash deposit is credited inside the same unit of work,
so the debit passes — leaving the balance **unchanged** and two ledger rows,
not the claimed decrease by the cost with a single debit row. -/
theorem softConflict_empty (req : BookReq) (t : UserId) (s : ClinicState)
    (h : s.appointments = []) : softConflict req t s = none := by
  unfold softConflict
  cases parseTimeOfDay req.time with
  | none => rfl
  | some m => simp [h]

theorem C1_counterexample :
    (bookAppointment sampleEnv reqCash stateCash).statusCode = 201 ∧
    walletBalance stateCash 1 = 0 ∧
    walletBalance (bookAppointment sampleEnv reqCash stateCash).state 1 = 0 ∧
    (bookAppointment sampleEnv reqCash stateCash).state.transactions.length = 2 := by
  norm_num [bookAppointment, resolveTargetUser, staffRoles, softConflict_empty,
    (by decide : ¬ (TxDirection.credit = TxDirection.debit)),
    (by decide : ¬ (TxDirection.debit = TxDirection.credit)),
    (by decide : ¬ (("2024-06-12" : String) = "2024-06-10")),
    validateBooking, bookCore, bookCashData, bookDebitData, bookInsert, bookNewAppt,
    createTransactionAndUpdateWallet, findWallet, findUser,
    findHospital, findAppointmentType, walletBalance, createNotification,
    hasActiveQueueEntry, inUnavailabilityEpisode,
    reqCash, stateCash, sampleEnv, emptyState, sampleDoctor,
    sampleDoctor2, samplePatient, samplePatient2, sampleHospital, sampleService,
    sampleService15, List.find?, List.any, List.filter, qActive]

/-- **C1** (amended): any non-201 outcome of `POST /api/appointments` leaves
the store exactly as it was (no appointment, queue entry or ledger row, and
no balance change).  A 201 outcome creates exactly one `Upcoming` appointment
at the stored cost; for an ordinary booking the ledger gains exactly one
debit row of the cost referencing the new appointment and the patient's
balance decreases by the cost, but for a staff **cash** booking the ledger
gains a deposit row followed by the debit row and the balance is unchanged. -/
theorem C1_booking (env : Env) (req : BookReq) (s : ClinicState) :
    ((bookAppointment env req s).statusCode ≠ 201 →
      (bookAppointment env req s).state = s) ∧
    ((bookAppointment env req s).statusCode = 201 →
      ∃ (target : UserId) (ty : AppointmentTypeRec) (doctor : UserRec)
        (hospId : Nat) (appt : Appointment),
        resolveTargetUser req = .ok target ∧
        validateBooking env req target = .ok (ty, doctor, hospId) ∧
        (bookAppointment env req s).apptId = some s.nextApptId ∧
        (bookAppointment env req s).state.appointments = s.appointments ++ [appt] ∧
        appt.id = s.nextApptId ∧ appt.user = target ∧ appt.doctor = doctor.id ∧
        appt.date = req.date ∧ appt.time = req.time ∧ appt.cost = ty.cost ∧
        appt.status = ApptStatus.Upcoming ∧
        (if req.cashPayment = true ∧ staffRoles.contains req.callerRole = true then
          (∃ txC txD : Transaction,
            (bookAppointment env req s).state.transactions =
              s.transactions ++ [txC, txD] ∧
            txC.wallet = target ∧ txC.direction = TxDirection.credit ∧
            txC.amount = ty.cost ∧ txC.transactionType = "Deposit" ∧
            txD.wallet = target ∧ txD.direction = TxDirection.debit ∧
            txD.amount = ty.cost ∧ txD.transactionType = "Appointment Fee" ∧
            txD.referenceId = toString s.nextApptId) ∧
          walletBalance (bookAppointment env req s).state target = walletBalance s target
        else
          (∃ txD : Transaction,
            (bookAppointment env req s).state.transactions = s.transactions ++ [txD] ∧
            txD.wallet = target ∧ txD.direction = TxDirection.debit ∧
            txD.amount = ty.cost ∧ txD.transactionType = "Appointment Fee" ∧
            txD.referenceId = toString s.nextApptId) ∧
          walletBalance (bookAppointment env req s).state target
            = walletBalance s target - ty.cost)) := by
  constructor
  · intro hne
    rcases book_cases env req s with h | h
    · exact absurd h hne
    · exact h
  · intro h201
    obtain ⟨target, ty, doctor, hospId, aid, sOut, hr, hv, hb, hres⟩ :=
      book_ok env req s h201
    obtain ⟨haid, -, appt, hApp, hidA, huser, hdoc, hdate, htime, hcost, hstat, hrest⟩ :=
      bookCore_ok hb
    subst haid
    rw [hres]
    exact ⟨target, ty, doctor, hospId, appt, hr, hv, rfl, hApp, hidA, huser, hdoc,
      hdate, htime, hcost, hstat, hrest⟩

/-- C1 witness: the spec's Scenario 1 — patient 1, balance 100, cost-50
service — runs through the amended theorem's success clause (non-cash
branch): one `Upcoming` appointment, one debit row of the cost, balance
down by the cost. -/
theorem C1_witness :
    (bookAppointment sampleEnv reqScenario1 stateScenario1).statusCode = 201 ∧
    (∃ (target : UserId) (ty : AppointmentTypeRec) (doctor : UserRec)
      (hospId : Nat) (appt : Appointment),
      resolveTargetUser reqScenario1 = .ok target ∧
      validateBooking sampleEnv reqScenario1 target = .ok (ty, doctor, hospId) ∧
      (bookAppointment sampleEnv reqScenario1 stateScenario1).apptId =
        some stateScenario1.nextApptId ∧
      (bookAppointment sampleEnv reqScenario1 stateScenario1).state.appointments =
        stateScenario1.appointments ++ [appt] ∧
      appt.id = stateScenario1.nextApptId ∧ appt.user = target ∧
      appt.doctor = doctor.id ∧ appt.date = reqScenario1.date ∧
      appt.time = reqScenario1.time ∧ appt.cost = ty.cost ∧
      appt.status = ApptStatus.Upcoming ∧
      (if reqScenario1.cashPayment = true ∧
          staffRoles.contains reqScenario1.callerRole = true then
        (∃ txC txD : Transaction,
          (bookAppointment sampleEnv reqScenario1 stateScenario1).state.transactions =
            stateScenario1.transactions ++ [txC, txD] ∧
          txC.wallet = target ∧ txC.direction = TxDirection.credit ∧
          txC.amount = ty.cost ∧ txC.transactionType = "Deposit" ∧
          txD.wallet = target ∧ txD.direction = TxDirection.debit ∧
          txD.amount = ty.cost ∧ txD.transactionType = "Appointment Fee" ∧
          txD.referenceId = toString stateScenario1.nextApptId) ∧
        walletBalance (bookAppointment sampleEnv reqScenario1 stateScenario1).state target
          = walletBalance stateScenario1 target
      else
        (∃ txD : Transaction,
          (bookAppointment sampleEnv reqScenario1 stateScenario1).state.transactions =
            stateScenario1.transactions ++ [txD] ∧
          txD.wallet = target ∧ txD.direction = TxDirection.debit ∧
          txD.amount = ty.cost ∧ txD.transactionType = "Appointment Fee" ∧
          txD.referenceId = toString stateScenario1.nextApptId) ∧
        walletBalance (bookAppointment sampleEnv reqScenario1 stateScenario1).state target
          = walletBalance stateScenario1 target - ty.cost)) :=
  have h201 : (bookAppointment sampleEnv reqScenario1 stateScenario1).statusCode = 201 := by
    norm_num [bookAppointment, resolveTargetUser, staffRoles, softConflict_empty,
      (by decide : ¬ (TxDirection.credit = TxDirection.debit)),
      (by decide : ¬ (TxDirection.debit = TxDirection.credit)),
      (by decide : ¬ (("2024-06-12" : String) = "2024-06-10")),
      (by decide : ¬ (("patient" : String) = "hospital staff")),
      (by decide : ¬ (("patient" : String) = "hospital manager")),
      (by decide : ¬ (("patient" : String) = "super admin")),
      validateBooking, bookCore, bookCashData, bookDebitData, bookInsert, bookNewAppt,
      createTransactionAndUpdateWallet, findWallet, findUser,
      findHospital, findAppointmentType, walletBalance, createNotification,
      hasActiveQueueEntry, inUnavailabilityEpisode,
      reqScenario1, stateScenario1, sampleEnv, emptyState, sampleDoctor,
      sampleDoctor2, samplePatient, samplePatient2, sampleHospital, sampleService,
      sampleService15, List.find?, List.any, List.filter, qActive]
  ⟨h201, (C1_booking sampleEnv reqScenario1 stateScenario1).2 h201⟩

/-! ## C2 / C10 — the (doctor, date, time) unique index -/

theorem length_filter_mono {α : Type} (p q : α → Bool)
    (h : ∀ a, p a = true → q a = true) : ∀ l : List α,
    (l.filter p).length ≤ (l.filter q).length := by
  intro l
  induction l with
  | nil => exact Nat.le_refl 0
  | cons a t ih =>
    by_cases hp : p a = true
    · simp [List.filter_cons, hp, h a hp] <;> omega
    · by_cases hq : q a = true
      · simp [List.filter_cons, hp, hq] <;> omega
      · simp [List.filter_cons, hp, hq] <;> omega

/-- With wallet funds in place, `bookCore` hits the unique-index guard as
soon as any appointment — of any status — occupies the requested triple. -/
theorem bookCore_dup {env : Env} {req : BookReq} {target : UserId}
    {ty : AppointmentTypeRec} {doctor : UserRec} {hospId : Nat} {s : ClinicState}
    {w : Wallet}
    (hnc : ¬ (req.cashPayment = true ∧ staffRoles.contains req.callerRole = true))
    (hw : findWallet s target = some w)
    (hbal : ¬ w.balance < ty.cost)
    (hdup : s.appointments.any
      (fun a => a.doctor = doctor.id ∧ a.date = req.date ∧ a.time = req.time) = true) :
    bookCore env req target ty doctor hospId s = .error .duplicateKey := by
  unfold bookCore
  rw [if_neg hnc]
  simp only []
  rw [hw]
  simp only []
  rw [if_neg hbal, if_pos hdup]

/-- Route-level: an occupied triple makes the booking answer 409 and leave
the store untouched (through the pre-checks or the E11000 handler). -/
theorem book_conflict {env : Env} {req : BookReq} {s : ClinicState} {target : UserId}
    {ty : AppointmentTypeRec} {doctor : UserRec} {hospId : Nat} {w : Wallet}
    (hr : resolveTargetUser req = .ok target)
    (hv : validateBooking env req target = .ok (ty, doctor, hospId))
    (hnc : ¬ (req.cashPayment = true ∧ staffRoles.contains req.callerRole = true))
    (hw : findWallet s target = some w)
    (hbal : ¬ w.balance < ty.cost)
    (hdup : s.appointments.any
      (fun a => a.doctor = doctor.id ∧ a.date = req.date ∧ a.time = req.time) = true) :
    (bookAppointment env req s).statusCode = 409 ∧ (bookAppointment env req s).state = s := by
  unfold bookAppointment
  rw [hr]
  simp only []
  by_cases h1 : s.appointments.any (fun a =>
      a.user = target ∧ a.status = ApptStatus.Upcoming ∧ a.date = req.date ∧
      a.time = req.time ∧ some a.doctor = req.doctorId) = true
  · rw [if_pos h1]
    exact ⟨rfl, rfl⟩
  · rw [if_neg h1]
    by_cases h2 : ¬ req.force = true ∧ (softConflict req target s).isSome = true
    · rw [if_pos h2]
      exact ⟨rfl, rfl⟩
    · rw [if_neg h2]
      rw [hv]
      simp only []
      rw [bookCore_dup hnc hw hbal hdup]
      exact ⟨rfl, rfl⟩

/-- **C2**: booking preserves "at most one appointment per (doctor, date,
time)" — hence at most one `Upcoming` one, the spec's invariant — and a
request for an occupied slot (here: occupied by an `Upcoming` appointment)
is answered 409 with the store untouched, provided the request would
otherwise have been bookable (valid references, funded wallet). -/
theorem C2_no_double_booking (env : Env) (req : BookReq) (s : ClinicState)
    (hInv : ∀ d dt tm, (slotAppts s d dt tm).length ≤ 1) :
    (∀ d dt tm, (slotAppts (bookAppointment env req s).state d dt tm).length ≤ 1) ∧
    (∀ d dt tm, (upcomingAt (bookAppointment env req s).state d dt tm).length ≤ 1) ∧
    (∀ (target : UserId) (ty : AppointmentTypeRec) (doctor : UserRec)
      (hospId : Nat) (w : Wallet) (e : Appointment),
      resolveTargetUser req = .ok target →
      validateBooking env req target = .ok (ty, doctor, hospId) →
      ¬ (req.cashPayment = true ∧ staffRoles.contains req.callerRole = true) →
      findWallet s target = some w →
      ¬ w.balance < ty.cost →
      e ∈ s.appointments → e.status = ApptStatus.Upcoming → e.doctor = doctor.id →
      e.date = req.date → e.time = req.time →
      (bookAppointment env req s).statusCode = 409 ∧
      (bookAppointment env req s).state = s) := by
  have hkey : ∀ d dt tm,
      (slotAppts (bookAppointment env req s).state d dt tm).length ≤ 1 := by
    rcases book_cases env req s with h201 | hSame
    · obtain ⟨target, ty, doctor, hospId, aid, sOut, hr, hv, hb, hres⟩ :=
        book_ok env req s h201
      obtain ⟨-, hdupF, appt, hApp, -, -, hdoc, hdate, htime, -, -, -⟩ := bookCore_ok hb
      have hSt : (bookAppointment env req s).state = sOut := by rw [hres]
      intro d dt tm
      rw [hSt]
      unfold slotAppts
      rw [hApp, List.filter_append, List.length_append]
      by_cases hm : (appt.doctor = d ∧ appt.date = dt ∧ appt.time = tm)
      · obtain ⟨hm1, hm2, hm3⟩ := hm
        have hd : d = doctor.id := hm1.symm.trans hdoc
        have hdt : dt = req.date := hm2.symm.trans hdate
        have htm : tm = req.time := hm3.symm.trans htime
        subst hd
        subst hdt
        subst htm
        have hall := List.any_eq_false.mp hdupF
        have hempty : s.appointments.filter
            (fun a => a.doctor = doctor.id ∧ a.date = req.date ∧ a.time = req.time) = [] :=
          List.filter_eq_nil.mpr hall
        rw [hempty]
        have hle : (List.filter (fun a =>
            decide (a.doctor = doctor.id ∧ a.date = req.date ∧ a.time = req.time))
            [appt]).length ≤ 1 := List.length_filter_le _ _
        simpa using hle
      · have hsingle : (List.filter (fun a =>
            decide (a.doctor = d ∧ a.date = dt ∧ a.time = tm)) [appt]).length = 0 := by
          simp [List.filter, hm]
        rw [hsingle]
        have := hInv d dt tm
        unfold slotAppts at this
        simpa using this
    · intro d dt tm
      rw [hSame]
      exact hInv d dt tm
  refine ⟨hkey, ?_, ?_⟩
  · intro d dt tm
    have hmono := length_filter_mono
      (fun a => decide (a.doctor = d ∧ a.date = dt ∧ a.time = tm ∧
        a.status = ApptStatus.Upcoming))
      (fun a => decide (a.doctor = d ∧ a.date = dt ∧ a.time = tm))
      (fun a ha => by
        have h := of_decide_eq_true ha
        exact decide_eq_true ⟨h.1, h.2.1, h.2.2.1⟩)
      ((bookAppointment env req s).state.appointments)
    exact Nat.le_trans hmono (hkey d dt tm)
  · intro target ty doctor hospId w e hr hv hnc hw hbal hmem hstat hdoc hdate htime
    refine book_conflict hr hv hnc hw hbal ?_
    rw [List.any_eq_true]
    refine ⟨e, hmem, ?_⟩
    exact decide_eq_true ⟨hdoc, hdate, htime⟩

/-- C2 witness: patient 2 requests the exact slot of patient 1's `Upcoming`
appointment (`stateBooked`, force on, funded wallet) and gets 409 with the
store untouched; the slot invariant holds before the call. -/
theorem C2_witness :
    (∀ d dt tm, (slotAppts stateBooked d dt tm).length ≤ 1) ∧
    (bookAppointment sampleEnv reqSameSlot stateBooked).statusCode = 409 ∧
    (bookAppointment sampleEnv reqSameSlot stateBooked).state = stateBooked :=
  have hInv : ∀ d dt tm, (slotAppts stateBooked d dt tm).length ≤ 1 :=
    fun _ _ _ => List.length_filter_le _ _
  ⟨hInv,
   (C2_no_double_booking sampleEnv reqSameSlot stateBooked hInv).2.2
     2 sampleService sampleDoctor 100 ⟨2, 100⟩ apptBooked (by decide) (by decide)
     (by decide) (by decide) (by decide) (List.mem_cons_self _ _) rfl rfl rfl rfl⟩

/-- **C10**: the storage-level unique index on `(doctor, date, time)` is not
restricted to `Upcoming` appointments: whenever any appointment — whatever
its status, e.g. a cancelled one — occupies the requested triple, an
otherwise-bookable request (valid references, funded wallet) by any patient
is answered 409 by the duplicate-key handler and the store is untouched, so
the occupied slot stays blocked for re-booking. -/
theorem C10_any_status_blocks (env : Env) (req : BookReq) (s : ClinicState)
    (target : UserId) (ty : AppointmentTypeRec) (doctor : UserRec)
    (hospId : Nat) (w : Wallet) (e : Appointment)
    (hr : resolveTargetUser req = .ok target)
    (hv : validateBooking env req target = .ok (ty, doctor, hospId))
    (hnc : ¬ (req.cashPayment = true ∧ staffRoles.contains req.callerRole = true))
    (hw : findWallet s target = some w)
    (hbal : ¬ w.balance < ty.cost)
    (hmem : e ∈ s.appointments) (hdoc : e.doctor = doctor.id)
    (hdate : e.date = req.date) (htime : e.time = req.time) :
    (bookAppointment env req s).statusCode = 409 ∧
    (bookAppointment env req s).state = s := by
  refine book_conflict hr hv hnc hw hbal ?_
  rw [List.any_eq_true]
  exact ⟨e, hmem, decide_eq_true ⟨hdoc, hdate, htime⟩⟩

/-- C10 witness: the blocking appointment of `stateCancelledSlot` is
**Cancelled**, yet patient 2's request for its exact slot is still answered
409 and nothing is written. -/
theorem C10_witness :
    ({ apptBooked with status := ApptStatus.Cancelled } ∈ stateCancelledSlot.appointments ∧
      ({ apptBooked with status := ApptStatus.Cancelled } : Appointment).status =
        ApptStatus.Cancelled) ∧
    (bookAppointment sampleEnv reqSameSlot stateCancelledSlot).statusCode = 409 ∧
    (bookAppointment sampleEnv reqSameSlot stateCancelledSlot).state = stateCancelledSlot :=
  ⟨⟨List.mem_cons_self _ _, rfl⟩,
   C10_any_status_blocks sampleEnv reqSameSlot stateCancelledSlot
     2 sampleService sampleDoctor 100 ⟨2, 100⟩
     { apptBooked with status := ApptStatus.Cancelled }
     (by decide) (by decide) (by decide) (by decide) (by decide)
     (List.mem_cons_self _ _) rfl rfl rfl⟩

/-! ## C3 — ledger consistency across interleaved operations -/

theorem walletBacked_eq_of {s' s : ClinicState} (h1 : s'.wallets = s.wallets)
    (h2 : s'.transactions = s.transactions) (hB : walletBacked s) :
    walletBacked s' := by
  unfold walletBacked
  rw [h1, h2]
  exact hB

/-- A successful wallet-service call keeps every ledger row backed by a
wallet: balances change but wallet owners never do, and the new row points
at the wallet that was just looked up. -/
theorem walletBacked_createTx {txd : TransactionData} {s s' : ClinicState}
    (h : createTransactionAndUpdateWallet txd s = .ok s')
    (hB : walletBacked s) : walletBacked s' := by
  unfold createTransactionAndUpdateWallet at h
  cases hw : findWallet s txd.userId with
  | none => rw [hw] at h; exact absurd h (by simp)
  | some wallet =>
    rw [hw] at h
    simp only [] at h
    by_cases hdeb : txd.direction = TxDirection.debit ∧ wallet.balance < txd.amount
    · rw [if_pos hdeb] at h
      exact absurd h (by simp)
    · rw [if_neg hdeb] at h
      have hs' := (Except.ok.injEq _ _).mp h.symm
      subst hs'
      have hfu : ∀ w : Wallet,
          (if w.user = txd.userId then
            { w with balance := w.balance +
                (if txd.direction = TxDirection.credit then txd.amount else -txd.amount) }
          else w).user = w.user := by
        intro w
        by_cases hx : w.user = txd.userId
        · simp [hx]
        · simp [hx]
      intro t ht
      rw [List.mem_append] at ht
      rcases ht with hold | hnew
      · obtain ⟨w2, hw2m, hw2u⟩ := hB t hold
        exact ⟨_, List.mem_map_of_mem _ hw2m, by rw [hfu w2]; exact hw2u⟩
      · rw [List.mem_singleton] at hnew
        subst hnew
        have hwmem : wallet ∈ s.wallets := List.mem_of_find?_eq_some hw
        exact ⟨_, List.mem_map_of_mem _ hwmem, by rw [hfu wallet]⟩

theorem preserve_eq_of {s' s : ClinicState} (h1 : s'.wallets = s.wallets)
    (h2 : s'.transactions = s.transactions)
    (h : ledgerConsistent s ∧ walletBacked s) :
    ledgerConsistent s' ∧ walletBacked s' :=
  ⟨ledger_eq_of h1 h2 h.1, walletBacked_eq_of h1 h2 h.2⟩

theorem preserve_createTx {txd : TransactionData} {s s' : ClinicState}
    (hc : createTransactionAndUpdateWallet txd s = .ok s')
    (h : ledgerConsistent s ∧ walletBacked s) :
    ledgerConsistent s' ∧ walletBacked s' :=
  ⟨ledger_createTx hc h.1, walletBacked_createTx hc h.2⟩

theorem preserve_notification (ok : Bool) (u : UserId) {s : ClinicState}
    (h : ledgerConsistent s ∧ walletBacked s) :
    ledgerConsistent (createNotification ok u s) ∧
      walletBacked (createNotification ok u s) :=
  preserve_eq_of (createNotification_wallets ok u s)
    (createNotification_transactions ok u s) h

/-- `getOrCreateWallet` keeps the ledger consistent: the wallet it may create
starts at 0 and — because every existing row is backed by some wallet and no
wallet of this user existed — no ledger row references the new wallet. -/
theorem preserve_getOrCreate (u : UserId) (s : ClinicState)
    (h : ledgerConsistent s ∧ walletBacked s) :
    ledgerConsistent (getOrCreateWallet u s) ∧ walletBacked (getOrCreateWallet u s) := by
  unfold getOrCreateWallet
  cases hw : findWallet s u with
  | some w => exact h
  | none =>
    simp only []
    have hnouser : ∀ w ∈ s.wallets, ¬ (w.user = u) := by
      intro w hwm heq
      have hfn : s.wallets.find? (fun w => w.user = u) = none := hw
      have := List.find?_eq_none.mp hfn w hwm
      exact this (by simpa using heq)
    constructor
    · intro w' hw'
      rw [List.mem_append] at hw'
      rcases hw' with hmem | hnew
      · exact h.1 w' hmem
      · rw [List.mem_singleton] at hnew
        subst hnew
        show (0 : Money) = txSum s.transactions u
        have hnotx : s.transactions.filter (fun t => t.wallet = u) = [] := by
          rw [List.filter_eq_nil]
          intro t ht
          obtain ⟨w2, hw2m, hw2u⟩ := h.2 t ht
          intro htw
          exact hnouser w2 hw2m (by rw [hw2u]; simpa using htw)
        unfold txSum
        rw [hnotx]
        rfl
    · intro t ht
      obtain ⟨w2, hw2m, hw2u⟩ := h.2 t ht
      exact ⟨w2, List.mem_append_left _ hw2m, hw2u⟩

/-- A successful `bookCore` preserves ledger consistency: its only ledger
writes go through the wallet service. -/
theorem bookCore_preserves {env : Env} {req : BookReq} {target : UserId}
    {ty : AppointmentTypeRec} {doctor : UserRec} {hospId : Nat} {s : ClinicState}
    {aid : Nat} {sOut : ClinicState}
    (h : bookCore env req target ty doctor hospId s = .ok (aid, sOut))
    (hp : ledgerConsistent s ∧ walletBacked s) :
    ledgerConsistent sOut ∧ walletBacked sOut := by
  unfold bookCore at h
  have tail : ∀ sX : ClinicState, ledgerConsistent sX ∧ walletBacked sX →
      (match findWallet sX target with
        | none => (.error .insufficientForPatient : Except ApiErr (Nat × ClinicState))
        | some currentWalletState =>
          if currentWalletState.balance < ty.cost then
            .error .insufficientForPatient
          else if sX.appointments.any
              (fun a => a.doctor = doctor.id ∧ a.date = req.date ∧ a.time = req.time) then
            .error .duplicateKey
          else
            match createTransactionAndUpdateWallet
                (bookDebitData target ty doctor hospId sX.nextApptId)
                (bookInsert env req target ty doctor hospId sX) with
            | .error e => .error e
            | .ok s2 => .ok (sX.nextApptId, createNotification true target s2)) =
        .ok (aid, sOut) →
      ledgerConsistent sOut ∧ walletBacked sOut := by
    intro sX hpX hX
    cases hw : findWallet sX target with
    | none => rw [hw] at hX; exact absurd hX (by simp)
    | some w =>
      rw [hw] at hX
      simp only [] at hX
      by_cases hbal : w.balance < ty.cost
      · rw [if_pos hbal] at hX
        exact absurd hX (by simp)
      · rw [if_neg hbal] at hX
        by_cases hdup : sX.appointments.any
            (fun a => a.doctor = doctor.id ∧ a.date = req.date ∧ a.time = req.time) = true
        · rw [if_pos hdup] at hX
          exact absurd hX (by simp)
        · rw [if_neg hdup] at hX
          cases htx : createTransactionAndUpdateWallet
              (bookDebitData target ty doctor hospId sX.nextApptId)
              (bookInsert env req target ty doctor hospId sX) with
          | error e => rw [htx] at hX; exact absurd hX (by simp)
          | ok s2 =>
            rw [htx] at hX
            simp only [] at hX
            have hpair := (Except.ok.injEq _ _).mp hX
            injection hpair with haid hsOut
            subst hsOut
            exact preserve_notification true target (preserve_createTx htx
              (preserve_eq_of (bookInsert_wallets env req target ty doctor hospId sX)
                (bookInsert_transactions env req target ty doctor hospId sX) hpX))
  by_cases hcash : req.cashPayment = true ∧ staffRoles.contains req.callerRole = true
  · rw [if_pos hcash] at h
    cases hc : createTransactionAndUpdateWallet (bookCashData target ty hospId s) s with
    | error e => rw [hc] at h; exact absurd h (by simp)
    | ok sA =>
      rw [hc] at h
      simp only [] at h
      exact tail sA (preserve_createTx hc hp) h
  · rw [if_neg hcash] at h
    simp only [] at h
    exact tail s hp h

/-- A successful status update preserves ledger consistency: the optional
refund goes through the wallet service; the status write itself touches only
the appointment row. -/
theorem updateTx_preserves {env : Env} {cid : UserId} {role : String}
    {hosps : List Nat} {aid : Nat} {st : ApptStatus} {notifOk : Bool}
    {s s' : ClinicState}
    (h : updateAppointmentStatusTx env cid role hosps aid st notifOk s = .ok s')
    (hp : ledgerConsistent s ∧ walletBacked s) :
    ledgerConsistent s' ∧ walletBacked s' := by
  unfold updateAppointmentStatusTx at h
  cases hfa : findAppt s aid with
  | none => rw [hfa] at h; exact absurd h (by simp)
  | some appt =>
    rw [hfa] at h
    simp only [] at h
    cases hfh : findHospital env appt.hospital with
    | none => rw [hfh] at h; exact absurd h (by simp)
    | some hospital =>
      rw [hfh] at h
      simp only [] at h
      by_cases hauth : ¬ (role = "patient" ∧ appt.user = cid) ∧
          ¬ (staffRoles.contains role = true ∧ hosps.contains appt.hospital = true)
      · rw [if_pos hauth] at h
        exact absurd h (by simp)
      · rw [if_neg hauth] at h
        by_cases hpo : (role = "patient" ∧ appt.user = cid) ∧ st ≠ ApptStatus.Cancelled
        · rw [if_pos hpo] at h
          exact absurd h (by simp)
        · rw [if_neg hpo] at h
          have fin : ∀ s1 : ClinicState, ledgerConsistent s1 ∧ walletBacked s1 →
              ∀ sF : ClinicState,
              (if st = ApptStatus.Cancelled then
                createNotification notifOk appt.user (updateAppt s1 aid (fun _ =>
                  if st = ApptStatus.Cancelled ∧ ¬ appt.isRefunded = true then
                    { appt with status := st, isRefunded := true }
                  else { appt with status := st }))
              else updateAppt s1 aid (fun _ =>
                  if st = ApptStatus.Cancelled ∧ ¬ appt.isRefunded = true then
                    { appt with status := st, isRefunded := true }
                  else { appt with status := st })) = sF →
              ledgerConsistent sF ∧ walletBacked sF := by
            intro s1 hp1 sF hF
            subst hF
            by_cases hcanc : st = ApptStatus.Cancelled
            · rw [if_pos hcanc]
              exact preserve_notification notifOk appt.user
                (preserve_eq_of (updateAppt_wallets s1 aid _)
                  (updateAppt_transactions s1 aid _) hp1)
            · rw [if_neg hcanc]
              exact preserve_eq_of (updateAppt_wallets s1 aid _)
                (updateAppt_transactions s1 aid _) hp1
          by_cases hrf : (st = ApptStatus.Cancelled ∧ ¬ appt.isRefunded = true) ∧
              appt.cost * (hospital.refundPolicyPercentage / 100) > 0
          · rw [if_pos hrf] at h
            cases hc : createTransactionAndUpdateWallet
                { userId := appt.user
                  amount := appt.cost * (hospital.refundPolicyPercentage / 100)
                  direction := .credit
                  transactionType := "Refund"
                  description := "Refund for cancelled appointment"
                  referenceId := toString appt.id
                  hospitalId := some appt.hospital } s with
            | error e => rw [hc] at h; exact absurd h (by simp)
            | ok s1 =>
              rw [hc] at h
              simp only [] at h
              have hs' := (Except.ok.injEq _ _).mp h
              exact fin s1 (preserve_createTx hc hp) s' hs'
          · rw [if_neg hrf] at h
            simp only [] at h
            have hs' := (Except.ok.injEq _ _).mp h
            exact fin s hp s' hs'

/-- `save()` under the unique index preserves ledger consistency (it only
rewrites the appointment row). -/
theorem saveApptUnique_preserves {s : ClinicState} {a : Appointment} {s' : ClinicState}
    (h : saveApptUnique s a = .ok s')
    (hp : ledgerConsistent s ∧ walletBacked s) :
    ledgerConsistent s' ∧ walletBacked s' := by
  unfold saveApptUnique at h
  by_cases hdup : s.appointments.any
      (fun b => b.id ≠ a.id ∧ b.doctor = a.doctor ∧ b.date = a.date ∧ b.time = a.time) = true
  · rw [if_pos hdup] at h
    exact absurd h (by simp)
  · rw [if_neg hdup] at h
    have hs' := (Except.ok.injEq _ _).mp h
    subst hs'
    exact preserve_eq_of (updateAppt_wallets s a.id _) (updateAppt_transactions s a.id _) hp

/-- A successful doctor-cancellation resolution preserves ledger
consistency: the full refund goes through the wallet service; redirection
and rescheduling only rewrite the appointment row. -/
theorem resolveTx_preserves {cid : UserId} {aid : Nat} {action : String}
    {nd : Option UserId} {ns : Option (Option String × Option String)} {notifOk : Bool}
    {s s' : ClinicState}
    (h : resolveCancellationTx cid aid action nd ns notifOk s = .ok s')
    (hp : ledgerConsistent s ∧ walletBacked s) :
    ledgerConsistent s' ∧ walletBacked s' := by
  unfold resolveCancellationTx at h
  cases hfa : findAppt s aid with
  | none => rw [hfa] at h; exact absurd h (by simp)
  | some appt =>
    rw [hfa] at h
    simp only [] at h
    by_cases hown : appt.user ≠ cid
    · rw [if_pos hown] at h
      exact absurd h (by simp)
    · rw [if_neg hown] at h
      by_cases hst : appt.status ≠ ApptStatus.DoctorCancelled
      · rw [if_pos hst] at h
        exact absurd h (by simp)
      · rw [if_neg hst] at h
        by_cases hres : appt.cancellationResolution ≠ Resolution.Pending
        · rw [if_pos hres] at h
          exact absurd h (by simp)
        · rw [if_neg hres] at h
          by_cases ha1 : action = "Refund"
          · rw [if_pos ha1] at h
            by_cases hpos : appt.cost > 0
            · rw [if_pos hpos] at h
              cases hc : createTransactionAndUpdateWallet
                  { userId := appt.user
                    amount := appt.cost
                    direction := .credit
                    transactionType := "Refund"
                    description := "Full refund for doctor apology"
                    referenceId := toString appt.id
                    hospitalId := some appt.hospital } s with
              | error e => rw [hc] at h; exact absurd h (by simp)
              | ok s1 =>
                rw [hc] at h
                simp only [] at h
                have hs' := (Except.ok.injEq _ _).mp h
                subst hs'
                exact preserve_notification notifOk appt.user
                  (preserve_eq_of (updateAppt_wallets s1 aid _)
                    (updateAppt_transactions s1 aid _) (preserve_createTx hc hp))
            · rw [if_neg hpos] at h
              simp only [] at h
              have hs' := (Except.ok.injEq _ _).mp h
              subst hs'
              exact preserve_notification notifOk appt.user
                (preserve_eq_of (updateAppt_wallets s aid _)
                  (updateAppt_transactions s aid _) hp)
          · rw [if_neg ha1] at h
            by_cases ha2 : action = "Redirect"
            · rw [if_pos ha2] at h
              cases hnd : nd with
              | none => rw [hnd] at h; exact absurd h (by simp)
              | some newDoc =>
                rw [hnd] at h
                simp only [] at h
                cases hns : ns with
                | none =>
                  rw [hns] at h
                  simp only [] at h
                  exact saveApptUnique_preserves h hp
                | some pr =>
                  obtain ⟨d?, t?⟩ := pr
                  rw [hns] at h
                  simp only [] at h
                  exact saveApptUnique_preserves h hp
            · rw [if_neg ha2] at h
              by_cases ha3 : action = "Reschedule"
              · rw [if_pos ha3] at h
                cases hns : ns with
                | none => rw [hns] at h; exact absurd h (by simp)
                | some pr =>
                  obtain ⟨d?, t?⟩ := pr
                  rw [hns] at h
                  cases hd : d? with
                  | none => rw [hd] at h; simp only [] at h; exact absurd h (by simp)
                  | some dv =>
                    rw [hd] at h
                    cases ht : t? with
                    | none => rw [ht] at h; simp only [] at h; exact absurd h (by simp)
                    | some tv =>
                      rw [ht] at h
                      simp only [] at h
                      exact saveApptUnique_preserves h hp
              · rw [if_neg ha3] at h
                exact absurd h (by simp)

theorem joinQueue_wt {env : Env} {u d : UserId} {hid : Nat} {s s' : ClinicState}
    (h : joinQueue env u d hid s = .ok s') :
    s'.wallets = s.wallets ∧ s'.transactions = s.transactions := by
  unfold joinQueue at h
  by_cases hact : hasActiveQueueEntry s u = true
  · rw [if_pos hact] at h
    exact absurd h (by simp)
  · rw [if_neg hact] at h
    cases hfu : findUser env d with
    | none => rw [hfu] at h; exact absurd h (by simp)
    | some doctor =>
      rw [hfu] at h
      simp only [] at h
      by_cases hrole : doctor.role ≠ "doctor" ∨ ¬ doctor.hospitals.contains hid = true
      · rw [if_pos hrole] at h
        exact absurd h (by simp)
      · rw [if_neg hrole] at h
        cases hta : s.appointments.find? (fun a =>
            a.user = u ∧ a.doctor = d ∧ a.hospital = hid ∧
            a.status = ApptStatus.Upcoming ∧ a.date = env.today) with
        | none =>
          rw [hta] at h
          simp only [] at h
          have hs' := (Except.ok.injEq _ _).mp h
          subst hs'
          exact ⟨rfl, rfl⟩
        | some a =>
          rw [hta] at h
          simp only [] at h
          by_cases hqn : a.queueNumber = none
          · rw [if_pos hqn] at h
            have hs' := (Except.ok.injEq _ _).mp h
            subst hs'
            exact ⟨rfl, rfl⟩
          · rw [if_neg hqn] at h
            have hs' := (Except.ok.injEq _ _).mp h
            subst hs'
            exact ⟨rfl, rfl⟩

theorem checkIn_wt {env : Env} {aid : Nat} {s s' : ClinicState}
    (h : checkInAppointment env aid s = .ok s') :
    s'.wallets = s.wallets ∧ s'.transactions = s.transactions := by
  unfold checkInAppointment at h
  cases hfa : findAppt s aid with
  | none => rw [hfa] at h; exact absurd h (by simp)
  | some appointment =>
    rw [hfa] at h
    simp only [] at h
    by_cases hq : s.queueItems.any (fun q =>
        q.doctor = appointment.doctor ∧ q.user = some appointment.user ∧
        qActive q.status) = true
    · rw [if_pos hq] at h
      exact absurd h (by simp)
    · rw [if_neg hq] at h
      by_cases hqn : appointment.queueNumber = none
      · rw [if_pos hqn] at h
        have hs' := (Except.ok.injEq _ _).mp h
        subst hs'
        exact ⟨rfl, rfl⟩
      · rw [if_neg hqn] at h
        have hs' := (Except.ok.injEq _ _).mp h
        subst hs'
        exact ⟨rfl, rfl⟩

theorem leaveQueue_wt (u : UserId) (s : ClinicState) :
    (leaveQueue u s).wallets = s.wallets ∧
    (leaveQueue u s).transactions = s.transactions := by
  unfold leaveQueue
  cases hfind : s.queueItems.find? (fun q =>
      q.user = some u ∧ (q.status = QStatus.Waiting ∨ q.status = QStatus.Held)) with
  | none => exact ⟨rfl, rfl⟩
  | some item =>
    exact ⟨rfl, rfl⟩

theorem callNext_wt (env : Env) (d : UserId) (ok : Bool) (s : ClinicState) :
    (callNextPatient env d ok s).wallets = s.wallets ∧
    (callNextPatient env d ok s).transactions = s.transactions := by
  unfold callNextPatient
  constructor
  · rw [callNextNotify_wallets, callNextPromote_wallets, callNextFinishServing_wallets]
  · rw [callNextNotify_transactions, callNextPromote_transactions,
      callNextFinishServing_transactions]

/-- Every modelled API operation preserves ledger consistency together with
the wallet-backing side invariant. -/
theorem applyOp_preserves (env : Env) (op : Op) (s : ClinicState)
    (hp : ledgerConsistent s ∧ walletBacked s) :
    ledgerConsistent (applyOp env op s) ∧ walletBacked (applyOp env op s) := by
  cases op with
  | deposit u amt ok =>
    simp only [applyOp]
    unfold depositRoute
    split
    · exact hp
    · split
      · exact hp
      · rename_i s' hc
        exact preserve_notification ok u (preserve_createTx hc hp)
  | redeemCode u c ok =>
    simp only [applyOp]
    unfold redeemCodeRoute
    split
    · exact hp
    · split
      · exact hp
      · split
        · exact hp
        · rename_i s' hc
          exact preserve_notification ok u
            (@preserve_eq_of _ s' rfl rfl (preserve_createTx hc hp))
  | addFunds u amt ok =>
    simp only [applyOp]
    unfold addFundsRoute
    split
    · exact hp
    · split
      · exact hp
      · split
        · exact hp
        · rename_i s' hc
          exact preserve_notification ok u (preserve_createTx hc hp)
  | createWallet u =>
    simp only [applyOp]
    exact preserve_getOrCreate u s hp
  | book req =>
    simp only [applyOp]
    rcases book_cases env req s with h201 | hSame
    · obtain ⟨target, ty, doctor, hospId, aid, sOut, hr, hv, hb, hres⟩ :=
        book_ok env req s h201
      have hSt : (bookAppointment env req s).state = sOut := by rw [hres]
      rw [hSt]
      exact bookCore_preserves hb hp
    · rw [hSame]
      exact hp
  | updateStatus cid role hosp aid st ok =>
    simp only [applyOp]
    unfold updateAppointmentStatus
    split
    · exact hp
    · rename_i s' hc
      exact updateTx_preserves hc hp
  | resolve cid aid action nd ns ok =>
    simp only [applyOp]
    unfold resolveCancellation
    split
    · exact hp
    · rename_i s' hc
      exact resolveTx_preserves hc hp
  | joinQ u d hid =>
    simp only [applyOp]
    split
    · rename_i s' hj
      exact preserve_eq_of (joinQueue_wt hj).1 (joinQueue_wt hj).2 hp
    · exact hp
  | leaveQ u =>
    simp only [applyOp]
    exact preserve_eq_of (leaveQueue_wt u s).1 (leaveQueue_wt u s).2 hp
  | checkIn aid =>
    simp only [applyOp]
    split
    · rename_i s' hcki
      exact preserve_eq_of (checkIn_wt hcki).1 (checkIn_wt hcki).2 hp
    · exact hp
  | callNext d ok =>
    simp only [applyOp]
    exact preserve_eq_of (callNext_wt env d ok s).1 (callNext_wt env d ok s).2 hp

/-- **C3**: after any interleaving of completed operations — deposits,
redeem-code credits, admin add-funds, wallet creation, bookings (with cash
deposits and debits), cancellations and resolutions with their refunds, and
the queue operations — every wallet's balance equals the sum of the signed
amounts of the transactions referencing it, provided the starting store
satisfied the invariant and every ledger row was backed by a wallet. -/
theorem C3_ledger_consistency (env : Env) (ops : List Op) :
    ∀ s : ClinicState, ledgerConsistent s → walletBacked s →
    ledgerConsistent (applyOps env ops s) ∧ walletBacked (applyOps env ops s) := by
  induction ops with
  | nil =>
    intro s hL hB
    exact ⟨hL, hB⟩
  | cons op rest ih =>
    intro s hL hB
    have hstep := applyOp_preserves env op s ⟨hL, hB⟩
    exact ih (applyOp env op s) hstep.1 hstep.2

/-- C3 witness: starting from the empty store, create a wallet, deposit 30
and run a call-next; the ledger invariant holds afterwards. -/
theorem C3_witness :
    ledgerConsistent emptyState ∧ walletBacked emptyState ∧
    (ledgerConsistent (applyOps sampleEnv
        [Op.createWallet 1, Op.deposit 1 30 true, Op.callNext 10 true] emptyState) ∧
      walletBacked (applyOps sampleEnv
        [Op.createWallet 1, Op.deposit 1 30 true, Op.callNext 10 true] emptyState)) :=
  have hL : ledgerConsistent emptyState := by decide
  have hB : walletBacked emptyState := by
    intro t ht
    exact absurd ht (List.not_mem_nil t)
  ⟨hL, hB, C3_ledger_consistency sampleEnv
    [Op.createWallet 1, Op.deposit 1 30 true, Op.callNext 10 true] emptyState hL hB⟩

end MyClinic
